import Mathlib

/-!
# wepoll: the polling engine of `src/epoll.c`

A shallow embedding of `epoll.c`.  Memory is explicit: registrations
(`epoll_sock_data_t`) and operations (`epoll_op_t`) live in two heaps indexed
by address, address `0` is `NULL`, and a freed block is absent from its heap.
`int` event masks are kept as their 32-bit two's-complement bit pattern, so the
tombstone value `-1` is `2^32 - 1`.  Operating-system calls (`malloc`,
`getsockopt`, `afd_poll`, `GetQueuedCompletionStatusEx`, `GetTickCount`,
`closesocket`, `CloseHandle`) are inputs of the functions that make them.
`assert` is compiled in: a failing assertion stops the run with the line of the
assertion.
-/

namespace Wepoll

set_option linter.unusedTactic false
set_option linter.unreachableTactic false
set_option linter.unusedVariables false

/-! ## Constants of the absent headers -/

/-- Constants that `epoll.c` takes from `epoll.h` and `msafd.h`, which are not
part of the sources at hand.  Every function of the embedding takes them as a
parameter. -/
structure Consts where
  EPOLLIN : Nat
  EPOLLOUT : Nat
  EPOLLRDHUP : Nat
  EPOLLERR : Nat
  EPOLLHUP : Nat
  EPOLLRDNORM : Nat
  EPOLLRDBAND : Nat
  EPOLLWRNORM : Nat
  EPOLLWRBAND : Nat
  EPOLLONESHOT : Nat
  EPOLL_EVENT_MASK : Nat
  EPOLL_CTL_ADD : Int
  EPOLL_CTL_MOD : Int
  EPOLL_CTL_DEL : Int
  AFD_POLL_RECEIVE : Nat
  AFD_POLL_RECEIVE_EXPEDITED : Nat
  AFD_POLL_SEND : Nat
  AFD_POLL_DISCONNECT : Nat
  AFD_POLL_ABORT : Nat
  AFD_POLL_LOCAL_CLOSE : Nat
  AFD_POLL_CONNECT : Nat
  AFD_POLL_ACCEPT : Nat
  AFD_POLL_CONNECT_FAIL : Nat
  AFD_PROVIDER_IDS : List Nat

/-- Modelled from the spec: the constants of the absent headers `epoll.h` and
`msafd.h`.  The readiness bits take the values of the portable readiness ABI
that the spec says they must match, the driver bits and the control
discriminators the customary ones, and there are three transport providers. -/
def abi : Consts where
  EPOLLIN := 0x001
  EPOLLOUT := 0x004
  EPOLLRDHUP := 0x2000
  EPOLLERR := 0x008
  EPOLLHUP := 0x010
  EPOLLRDNORM := 0x040
  EPOLLRDBAND := 0x080
  EPOLLWRNORM := 0x100
  EPOLLWRBAND := 0x200
  EPOLLONESHOT := 0x40000000
  EPOLL_EVENT_MASK := 0xffff
  EPOLL_CTL_ADD := 1
  EPOLL_CTL_MOD := 2
  EPOLL_CTL_DEL := 3
  AFD_POLL_RECEIVE := 0x0001
  AFD_POLL_RECEIVE_EXPEDITED := 0x0002
  AFD_POLL_SEND := 0x0004
  AFD_POLL_DISCONNECT := 0x0008
  AFD_POLL_ABORT := 0x0010
  AFD_POLL_LOCAL_CLOSE := 0x0020
  AFD_POLL_CONNECT := 0x0040
  AFD_POLL_ACCEPT := 0x0080
  AFD_POLL_CONNECT_FAIL := 0x0100
  AFD_PROVIDER_IDS := [101, 102, 103]

/-! ## Machine words and platform constants -/

/-- Addresses; `0` is `NULL`. -/
abbrev Ptr := Nat

/-- The null pointer. -/
def NULL : Ptr := 0

/-- Number of values of a 32-bit word (`int`, `DWORD`, `uint32_t`). -/
def W32 : Nat := 2 ^ 32

/-- Number of values of a pointer-width word (`size_t`, `SOCKET`) on a 64-bit
target. -/
def W64 : Nat := 2 ^ 64

/-- Bit pattern of the `int` value `-1`, the tombstone that `EPOLL_CTL_DEL`
stores in `events`. -/
def TOMBSTONE : Nat := W32 - 1

/-- Largest `int`. -/
def INT_MAX : Int := 2 ^ 31 - 1

/-- The value `INVALID_SOCKET` of winsock: all bits set. -/
def INVALID_SOCKET : Nat := W64 - 1

/-- The value `INVALID_HANDLE_VALUE` of the Windows API: all bits set. -/
def INVALID_HANDLE_VALUE : Nat := W64 - 1

/-- The value `INFINITE` of the Windows API. -/
def INFINITE : Nat := W32 - 1

/-- The Windows error code `WAIT_TIMEOUT`. -/
def WAIT_TIMEOUT : Nat := 258

/-- The winsock error code `WSA_IO_PENDING`. -/
def WSA_IO_PENDING : Nat := 997

/-- Bitwise complement `~x` of a 32-bit word. -/
def bnot32 (x : Nat) : Nat := W32 - 1 - x % W32

/-- Logical negation `!x` of C. -/
def lnot (x : Nat) : Nat := if x = 0 then 1 else 0

/-- Conversion of a word to `int`: the low 32 bits, read as two's complement. -/
def toInt32 (x : Nat) : Int :=
  if x % W32 < 2 ^ 31 then ((x % W32 : Nat) : Int) else ((x % W32 : Nat) : Int) - (W32 : Int)

/-- The Windows test `NT_SUCCESS(status)`: the status, read as a signed 32-bit
value, is not negative. -/
def NT_SUCCESS (status : Nat) : Bool := decide (0 ≤ toInt32 status)

/-! ## Data model -/

/-- Ways a run stops without returning. -/
inductive Fault where
  /-- An `assert` failed; the argument is its line in `epoll.c`. -/
  | assertion (line : Nat)
  /-- A null or freed block was dereferenced or freed. -/
  | invalid_pointer
  /-- Signed arithmetic left the range of `int`. -/
  | overflow
  /-- The supplied operating-system answer is one the system cannot give
  (memory that is already allocated, a completion for an operation that is not
  in flight, more completions than were asked for). -/
  | environment
  /-- The supplied list of operating-system answers ended before the loop
  did. -/
  | fuel
deriving DecidableEq

/-- Error codes that `epoll.c` sets itself. -/
inductive WinError where
  | ERROR_OUTOFMEMORY
  | ERROR_NOT_SUPPORTED
  | ERROR_ALREADY_EXISTS
  | ERROR_NOT_FOUND
  | WSAEINVAL
deriving DecidableEq

/-- The record `struct epoll_event`: a readiness mask and the caller's token. -/
structure epoll_event where
  events : Nat
  data : Nat
deriving DecidableEq

/-- State associated with a socket that is registered to the epoll port
(`struct epoll_sock_data_s`; the tree entry is kept by the registry). -/
structure epoll_sock_data_s where
  sock : Nat
  base_sock : Nat
  peer_sock : Nat
  op_generation : Int
  submitted_events : Nat
  events : Nat
  attn : Nat
  user_data : Nat
  free_op : Ptr
  attn_prev : Ptr
  attn_next : Ptr
deriving DecidableEq

/-- State associated with an `AFD_POLL` request (`struct epoll_op_s`): the
status word `Internal` of the overlapped header, the fields of the poll payload,
the generation and the owning registration. -/
structure epoll_op_s where
  Internal : Nat
  Exclusive : Bool
  NumberOfHandles : Nat
  Timeout : Int
  Handle : Nat
  Status : Nat
  Events : Nat
  generation : Int
  sock_data : Ptr
deriving DecidableEq

/-- State associated with an epoll handle (`struct epoll_port_data_s`).  The
registry `sock_data_tree` holds the addresses of the registered
registrations. -/
structure epoll_port_data_s where
  iocp : Nat
  peer_sockets : List Nat
  sock_data_tree : List Ptr
  attn : Ptr
  pending_ops_count : Nat
deriving DecidableEq

/-- One port together with the memory it points into.  `kernel` lists the
operations whose poll request is in flight, which the driver owns until their
completion is dequeued. -/
structure State where
  port : epoll_port_data_s
  socks : Ptr → Option epoll_sock_data_s
  ops : Ptr → Option epoll_op_s
  kernel : List Ptr

/-- Contents of a block fresh from `malloc` for a registration. -/
def epoll_sock_data_s.uninit : epoll_sock_data_s :=
  ⟨0, 0, 0, 0, 0, 0, 0, 0, 0, 0, 0⟩

/-- Contents of a block fresh from `malloc` for an operation. -/
def epoll_op_s.uninit : epoll_op_s :=
  ⟨0, false, 0, 0, 0, 0, 0, 0, 0⟩

/-! ## Memory access -/

/-- Read of `*p` for a registration. -/
def State.sock_at (st : State) (p : Ptr) : Except Fault epoll_sock_data_s :=
  if p = NULL then .error .invalid_pointer
  else match st.socks p with
    | some r => .ok r
    | none => .error .invalid_pointer

/-- Read of `*p` for an operation. -/
def State.op_at (st : State) (p : Ptr) : Except Fault epoll_op_s :=
  if p = NULL then .error .invalid_pointer
  else match st.ops p with
    | some o => .ok o
    | none => .error .invalid_pointer

/-- Store to the registration at `p`. -/
def State.set_sock (st : State) (p : Ptr) (r : epoll_sock_data_s) : State :=
  { st with socks := Function.update st.socks p (some r) }

/-- Store to the operation at `p`. -/
def State.set_op (st : State) (p : Ptr) (o : epoll_op_s) : State :=
  { st with ops := Function.update st.ops p (some o) }

/-- Update of fields of the registration at `p`. -/
def State.modify_sock (st : State) (p : Ptr)
    (f : epoll_sock_data_s → epoll_sock_data_s) : Except Fault State :=
  match st.sock_at p with
  | .ok r => .ok (st.set_sock p (f r))
  | .error e => .error e

/-- The call `free(p)` on a registration. -/
def State.free_sock (st : State) (p : Ptr) : Except Fault State :=
  match st.sock_at p with
  | .ok _ => .ok { st with socks := Function.update st.socks p none }
  | .error e => .error e

/-- The call `free(p)` on an operation; `free(NULL)` does nothing. -/
def State.free_op (st : State) (p : Ptr) : Except Fault State :=
  if p = NULL then .ok st
  else match st.op_at p with
    | .ok _ => .ok { st with ops := Function.update st.ops p none }
    | .error e => .error e

/-- Update of the list of operations in flight. -/
def State.set_kernel (st : State) (k : List Ptr) : State :=
  { st with kernel := k }

/-- Update of the port record. -/
def State.set_port (st : State) (f : epoll_port_data_s → epoll_port_data_s) : State :=
  { st with port := f st.port }

/-! ## The registry -/

/-- The key comparison of the registry (`epoll.c` line 52): the difference of
the two pointer-width socket handles, returned as an `int`. -/
def epoll_socket_compare (a b : epoll_sock_data_s) : Int :=
  toInt32 ((a.sock % W64 + W64 - b.sock % W64) % W64)

/-- Modelled from the spec: `RB_FIND` of the absent `tree.h`, on the registry
as the spec describes it, an ordered mapping keyed by socket handle.  The
entries are visited in turn and the first one that compares equal to the key is
returned, `NULL` when there is none. -/
def RB_FIND (st : State) (key : epoll_sock_data_s) : List Ptr → Except Fault Ptr
  | [] => .ok NULL
  | p :: rest =>
    match st.sock_at p with
    | .error e => .error e
    | .ok r => if epoll_socket_compare key r = 0 then .ok p else RB_FIND st key rest

/-- Modelled from the spec: `RB_INSERT` of the absent `tree.h`.  When an entry
compares equal to the new one, that entry is returned and the registry is
unchanged; otherwise the new entry is linked in and `NULL` is returned. -/
def RB_INSERT (st : State) (elm : Ptr) : Except Fault (Ptr × State) :=
  match st.sock_at elm with
  | .error e => .error e
  | .ok r =>
    match RB_FIND st r st.port.sock_data_tree with
    | .error e => .error e
    | .ok found =>
      if found ≠ NULL then .ok (found, st)
      else .ok (NULL, st.set_port fun pd => { pd with sock_data_tree := elm :: pd.sock_data_tree })

/-- Modelled from the spec: `RB_REMOVE` of the absent `tree.h`; the entry is
unlinked from the registry. -/
def RB_REMOVE (st : State) (elm : Ptr) : State :=
  st.set_port fun pd => { pd with sock_data_tree := pd.sock_data_tree.erase elm }

/-- Key record `lookup` of `EPOLL_CTL_MOD` and `EPOLL_CTL_DEL`: only `sock` is
set. -/
def lookup_key (sock : Nat) : epoll_sock_data_s :=
  { epoll_sock_data_s.uninit with sock := sock }

/-! ## Helper sockets -/

/-- Answers of the system calls made by `epoll__create_peer_socket`. -/
structure peer_socket_env where
  WSASocketW : Nat
  SetHandleInformation : Bool
  CreateIoCompletionPort : Nat

/-- The function `epoll__create_peer_socket` (line 88): the new helper socket,
or `INVALID_SOCKET` when one of the three calls fails. -/
def epoll__create_peer_socket (env : peer_socket_env) : Nat :=
  if env.WSASocketW = INVALID_SOCKET then INVALID_SOCKET
  else if !env.SetHandleInformation then INVALID_SOCKET
  else if env.CreateIoCompletionPort = NULL then INVALID_SOCKET
  else env.WSASocketW

/-- The search loop of `epoll__get_peer_socket` (lines 126-133): the last index
whose provider identifier equals the one of the socket, `-1` when none does. -/
def provider_index (K : Consts) (ProviderId : Nat) : Int :=
  K.AFD_PROVIDER_IDS.enum.foldl
    (fun index e => if ProviderId = e.2 then (e.1 : Int) else index) (-1)

/-- The function `epoll__get_peer_socket` (line 121): the helper socket of the
provider, the error it sets, and the port with the cache slot filled. -/
def epoll__get_peer_socket (K : Consts) (st : State) (ProviderId : Nat)
    (env : peer_socket_env) : Nat × Option WinError × State :=
  let index := provider_index K ProviderId
  if index < 0 then (INVALID_SOCKET, some .ERROR_NOT_SUPPORTED, st)
  else
    let peer_socket := st.port.peer_sockets.getD index.toNat 0
    if peer_socket = 0 then
      let created := epoll__create_peer_socket env
      (created, none,
        st.set_port fun pd => { pd with peer_sockets := pd.peer_sockets.set index.toNat created })
    else (peer_socket, none, st)

/-! ## Poll-request submission -/

/-- Driver event mask computed by `epoll__submit_poll_op` (lines 168-175). -/
def submit_afd_events (K : Consts) (events : Nat) : Nat :=
  let a0 := K.AFD_POLL_ABORT ||| K.AFD_POLL_CONNECT_FAIL ||| K.AFD_POLL_LOCAL_CLOSE
  let a1 := if events &&& (K.EPOLLIN ||| K.EPOLLRDNORM) ≠ 0
    then a0 ||| (K.AFD_POLL_RECEIVE ||| K.AFD_POLL_ACCEPT) else a0
  let a2 := if events &&& (K.EPOLLIN ||| K.EPOLLRDBAND) ≠ 0
    then a1 ||| K.AFD_POLL_RECEIVE_EXPEDITED else a1
  if events &&& (K.EPOLLOUT ||| K.EPOLLWRNORM ||| K.EPOLLRDBAND) ≠ 0
    then a2 ||| (K.AFD_POLL_SEND ||| K.AFD_POLL_CONNECT) else a2

/-- Answer of the driver call `afd_poll`: its return value and the value of
`WSAGetLastError()` after it. -/
structure afd_poll_env where
  result : Nat
  error : Nat

/-- The function `epoll__submit_poll_op` (line 154): the return value and the
state after it. -/
def epoll__submit_poll_op (K : Consts) (st : State) (sock_data : Ptr)
    (env : afd_poll_env) : Except Fault (Int × State) :=
  match st.sock_at sock_data with
  | .error e => .error e
  | .ok sd =>
    let op := sd.free_op
    let events := sd.events
    if op = NULL then .error (.assertion 163)
    else if events &&& K.EPOLLERR = 0 then .error (.assertion 166)
    else if events &&& K.EPOLLHUP = 0 then .error (.assertion 167)
    else if INT_MAX < sd.op_generation + 1 then .error .overflow
    else
      match st.op_at op with
      | .error e => .error e
      | .ok o =>
        let sd1 := { sd with op_generation := sd.op_generation + 1 }
        let st1 := (st.set_sock sock_data sd1).set_op op
          { o with generation := sd1.op_generation, sock_data := sock_data,
                   Internal := 0, Exclusive := true, NumberOfHandles := 1, Timeout := 2 ^ 63 - 1,
                   Handle := sd.base_sock, Status := 0,
                   Events := submit_afd_events K events }
        if env.result ≠ 0 ∧ env.error ≠ WSA_IO_PENDING then .ok (-1, st1)
        else
          let st2 := st1.set_sock sock_data { sd1 with free_op := NULL }
          let st3 := st2.set_port fun pd =>
            { pd with pending_ops_count := (pd.pending_ops_count + 1) % W64 }
          .ok (0, st3.set_kernel (st3.kernel ++ [op]))

/-! ## epoll_create -/

/-- The function `epoll_create` (line 60): the fresh port, or `none` for the
`NULL` it returns when `malloc` or `CreateIoCompletionPort` fails. -/
def epoll_create (K : Consts) (malloc_ok : Bool) (iocp : Nat) : Option State :=
  if !malloc_ok then none
  else if iocp = INVALID_HANDLE_VALUE then none
  else some
    { port := { iocp := iocp, peer_sockets := List.replicate K.AFD_PROVIDER_IDS.length 0,
                sock_data_tree := [], attn := NULL, pending_ops_count := 0 },
      socks := fun _ => none, ops := fun _ => none, kernel := [] }

/-! ## epoll_ctl -/

/-- Answers of the system calls made by `epoll_ctl`: the return value of
`getsockopt` and the provider identifier it reports, the calls that create a
helper socket, and the two blocks `malloc` hands out (`NULL` when it fails). -/
structure ctl_env where
  getsockopt : Int
  ProviderId : Nat
  peer : peer_socket_env
  malloc_sock_data : Ptr
  malloc_op : Ptr

/-- What `epoll_ctl` leaves behind: return value, the error code it set, if
any, and the state. -/
structure ctl_result where
  ret : Int
  last_error : Option WinError
  st : State

/-- The statements that link a registration at the head of the attention list
in `EPOLL_CTL_ADD` (lines 269-274). -/
def attn_push_add (st : State) (sock_data : Ptr) : Except Fault State :=
  match st.modify_sock sock_data
      (fun r => { r with attn := 1, attn_prev := NULL, attn_next := st.port.attn }) with
  | .error e => .error e
  | .ok st1 =>
    if st1.port.attn ≠ NULL then
      match st1.modify_sock st1.port.attn (fun r => { r with attn_prev := sock_data }) with
      | .error e => .error e
      | .ok st2 => .ok (st2.set_port fun pd => { pd with attn := sock_data })
    else .ok (st1.set_port fun pd => { pd with attn := sock_data })

/-- The case `EPOLL_CTL_ADD` of `epoll_ctl` (lines 215-277). -/
def epoll_ctl_add (K : Consts) (st : State) (sock : Nat) (event : epoll_event)
    (env : ctl_env) : Except Fault ctl_result :=
  if env.getsockopt ≠ 0 then .ok ⟨-1, none, st⟩
  else
    let (peer_sock, err, st1) := epoll__get_peer_socket K st env.ProviderId env.peer
    if peer_sock = INVALID_SOCKET then .ok ⟨-1, err, st1⟩
    else if env.malloc_sock_data = NULL then .ok ⟨-1, some .ERROR_OUTOFMEMORY, st1⟩
    else if (st1.socks env.malloc_sock_data).isSome then .error .environment
    else
      let sock_data := env.malloc_sock_data
      let st2 := st1.set_sock sock_data epoll_sock_data_s.uninit
      if env.malloc_op = NULL then
        match st2.free_sock sock_data with
        | .error e => .error e
        | .ok st3 => .ok ⟨-1, some .ERROR_OUTOFMEMORY, st3⟩
      else if (st2.ops env.malloc_op).isSome then .error .environment
      else
        let op := env.malloc_op
        let st3 := st2.set_op op epoll_op_s.uninit
        let st4 := st3.set_sock sock_data
          { epoll_sock_data_s.uninit with
              sock := sock, base_sock := sock, op_generation := 0, submitted_events := 0,
              events := (event.events ||| K.EPOLLERR ||| K.EPOLLHUP) % W32,
              user_data := event.data, peer_sock := peer_sock, free_op := op }
        match RB_INSERT st4 sock_data with
        | .error e => .error e
        | .ok (found, st5) =>
          if found ≠ NULL then
            match st5.free_sock sock_data with
            | .error e => .error e
            | .ok st6 =>
              match st6.free_op op with
              | .error e => .error e
              | .ok st7 => .ok ⟨-1, some .ERROR_ALREADY_EXISTS, st7⟩
          else
            match attn_push_add st5 sock_data with
            | .error e => .error e
            | .ok st6 => .ok ⟨0, none, st6⟩

/-- The statements that link a registration at the head of the attention list
in `EPOLL_CTL_MOD` (lines 304-309). -/
def attn_push_mod (st : State) (sock_data : Ptr) : Except Fault State :=
  match st.modify_sock sock_data
      (fun r => { r with attn_prev := NULL, attn_next := st.port.attn }) with
  | .error e => .error e
  | .ok st1 =>
    let linked :=
      if st1.port.attn ≠ NULL then
        st1.modify_sock st1.port.attn (fun r => { r with attn_prev := sock_data })
      else .ok st1
    match linked with
    | .error e => .error e
    | .ok st2 =>
      (st2.set_port fun pd => { pd with attn := sock_data }).modify_sock sock_data
        (fun r => { r with attn := 1 })

/-- The statements of `EPOLL_CTL_MOD` that provide a spare operation
(lines 292-300): `none` when `malloc` fails, else the state after them.  The
block from `malloc` is allocated, and `free_op` is assigned `NULL`. -/
def epoll_ctl_mod_spare (st : State) (sock_data : Ptr) (sd : epoll_sock_data_s)
    (env : ctl_env) : Except Fault (Option State) :=
  if sd.free_op = NULL then
    if env.malloc_op = NULL then .ok none
    else if (st.ops env.malloc_op).isSome then .error .environment
    else
      match (st.set_op env.malloc_op epoll_op_s.uninit).modify_sock sock_data
          (fun r => { r with free_op := NULL }) with
      | .error e => .error e
      | .ok st1 => .ok (some st1)
  else .ok (some st)

/-- The case `EPOLL_CTL_MOD` of `epoll_ctl` (lines 279-316). -/
def epoll_ctl_mod (K : Consts) (st : State) (sock : Nat) (event : epoll_event)
    (env : ctl_env) : Except Fault ctl_result :=
  match RB_FIND st (lookup_key sock) st.port.sock_data_tree with
  | .error e => .error e
  | .ok sock_data =>
    if sock_data = NULL then .ok ⟨-1, some .ERROR_NOT_FOUND, st⟩
    else
      match st.sock_at sock_data with
      | .error e => .error e
      | .ok sd =>
        let finish (s : State) : Except Fault ctl_result :=
          match s.modify_sock sock_data (fun r =>
              { r with events := (event.events ||| K.EPOLLERR ||| K.EPOLLHUP) % W32,
                       user_data := event.data }) with
          | .error e => .error e
          | .ok s1 => .ok ⟨0, none, s1⟩
        if event.events % W32 &&& bnot32 sd.submitted_events ≠ 0 then
          match epoll_ctl_mod_spare st sock_data sd env with
          | .error e => .error e
          | .ok none => .ok ⟨-1, some .ERROR_OUTOFMEMORY, st⟩
          | .ok (some st1) =>
            if sd.attn = 0 then
              match attn_push_mod st1 sock_data with
              | .error e => .error e
              | .ok st2 => finish st2
            else finish st1
        else finish st

/-- The statements that unlink a registration from the attention list in
`EPOLL_CTL_DEL` (lines 336-345). -/
def attn_unlink (st : State) (sock_data : Ptr) : Except Fault State :=
  match st.sock_at sock_data with
  | .error e => .error e
  | .ok sd =>
    if sd.attn ≠ 0 then
      let s1 :=
        if sd.attn_prev ≠ NULL then
          st.modify_sock sd.attn_prev (fun r => { r with attn_next := sd.attn_next })
        else .ok st
      match s1 with
      | .error e => .error e
      | .ok st1 =>
        match st1.sock_at sock_data with
        | .error e => .error e
        | .ok sd1 =>
          let s2 :=
            if sd1.attn_next ≠ NULL then
              st1.modify_sock sd1.attn_next (fun r => { r with attn_prev := sd1.attn_prev })
            else .ok st1
          match s2 with
          | .error e => .error e
          | .ok st2 =>
            match st2.sock_at sock_data with
            | .error e => .error e
            | .ok sd2 =>
              let st3 :=
                if st2.port.attn = sock_data then
                  st2.set_port fun pd => { pd with attn := sd2.attn_next }
                else st2
              st3.modify_sock sock_data
                (fun r => { r with attn := 0, attn_prev := NULL, attn_next := NULL })
    else .ok st

/-- The case `EPOLL_CTL_DEL` of `epoll_ctl` (lines 318-357). -/
def epoll_ctl_del (st : State) (sock : Nat) : Except Fault ctl_result :=
  match RB_FIND st (lookup_key sock) st.port.sock_data_tree with
  | .error e => .error e
  | .ok sock_data =>
    if sock_data = NULL then .ok ⟨-1, some .ERROR_NOT_FOUND, st⟩
    else
      let st1 := RB_REMOVE st sock_data
      match st1.sock_at sock_data with
      | .error e => .error e
      | .ok sd =>
        match st1.free_op sd.free_op with
        | .error e => .error e
        | .ok st2 =>
          match st2.modify_sock sock_data (fun r => { r with events := TOMBSTONE }) with
          | .error e => .error e
          | .ok st3 =>
            match attn_unlink st3 sock_data with
            | .error e => .error e
            | .ok st4 =>
              match st4.sock_at sock_data with
              | .error e => .error e
              | .ok sd4 =>
                if sd4.submitted_events = 0 then
                  if sd4.op_generation = 0 then
                    match st4.free_sock sock_data with
                    | .error e => .error e
                    | .ok st5 => .ok ⟨0, none, st5⟩
                  else .error (.assertion 348)
                else
                  if 0 < sd4.op_generation then .ok ⟨0, none, st4⟩
                  else .error (.assertion 353)

/-- The function `epoll_ctl` (line 208). -/
def epoll_ctl (K : Consts) (st : State) (op : Int) (sock : Nat) (event : epoll_event)
    (env : ctl_env) : Except Fault ctl_result :=
  if op = K.EPOLL_CTL_ADD then epoll_ctl_add K st sock event env
  else if op = K.EPOLL_CTL_MOD then epoll_ctl_mod K st sock event env
  else if op = K.EPOLL_CTL_DEL then epoll_ctl_del st sock
  else .ok ⟨-1, some .WSAEINVAL, st⟩

/-! ## epoll_wait -/

/-- The drain loop of `epoll_wait` (lines 374-389).  The list holds the answer
of `afd_poll` for each turn of the loop; a turn that submits nothing leaves its
answer unused. -/
def epoll_wait_drain (K : Consts) : State → List afd_poll_env → Except Fault State
  | st, [] =>
    if st.port.attn = NULL then .ok (st.set_port fun pd => { pd with attn := NULL })
    else .error .fuel
  | st, env :: rest =>
    if st.port.attn = NULL then .ok (st.set_port fun pd => { pd with attn := NULL })
    else
      let sock_data := st.port.attn
      match st.sock_at sock_data with
      | .error e => .error e
      | .ok sd =>
        if sd.attn = 0 then .error (.assertion 376)
        else
          let submitted :=
            if sd.events &&& K.EPOLL_EVENT_MASK &&& bnot32 sd.submitted_events ≠ 0 then
              (epoll__submit_poll_op K st sock_data env).map Prod.snd
            else .ok st
          match submitted with
          | .error e => .error e
          | .ok st1 =>
            match st1.sock_at sock_data with
            | .error e => .error e
            | .ok sd1 =>
              let st2 := st1.set_port fun pd => { pd with attn := sd1.attn_next }
              match st2.modify_sock sock_data
                  (fun r => { r with attn_prev := NULL, attn_next := NULL, attn := 0 }) with
              | .error e => .error e
              | .ok st3 => epoll_wait_drain K st3 rest

/-- One dequeued completion packet: the operation its overlapped header belongs
to, and what the driver wrote into that operation before completing it. -/
structure OVERLAPPED_ENTRY where
  lpOverlapped : Ptr
  Internal : Nat
  NumberOfHandles : Nat
  Events : Nat
deriving DecidableEq

/-- Readiness mask that `epoll_wait` builds from the driver events
(lines 490-504), before it is masked by the registered events. -/
def translate_afd_events (K : Consts) (afd_events : Nat) : Nat :=
  let r1 := if afd_events &&& (K.AFD_POLL_RECEIVE ||| K.AFD_POLL_ACCEPT) ≠ 0
    then K.EPOLLIN ||| K.EPOLLRDNORM else 0
  let r2 := if afd_events &&& K.AFD_POLL_RECEIVE_EXPEDITED ≠ 0
    then r1 ||| (K.EPOLLIN ||| K.EPOLLRDBAND) else r1
  let r3 := if afd_events &&& K.AFD_POLL_SEND ≠ 0
    then r2 ||| (K.EPOLLOUT ||| K.EPOLLWRNORM ||| K.EPOLLWRBAND) else r2
  let r4 := if afd_events &&& K.AFD_POLL_DISCONNECT ≠ 0 ∧ ¬ (afd_events &&& K.AFD_POLL_ABORT ≠ 0)
    then r3 ||| (K.EPOLLRDHUP ||| K.EPOLLIN ||| K.EPOLLRDNORM ||| K.EPOLLRDBAND) else r3
  let r5 := if afd_events &&& K.AFD_POLL_ABORT ≠ 0
    then r4 ||| (K.EPOLLHUP ||| K.EPOLLERR) else r4
  let r6 := if afd_events &&& K.AFD_POLL_CONNECT ≠ 0
    then r5 ||| (K.EPOLLOUT ||| K.EPOLLWRNORM ||| K.EPOLLWRBAND) else r5
  if afd_events &&& K.AFD_POLL_CONNECT_FAIL ≠ 0 then r6 ||| K.EPOLLERR else r6

/-- The value of `reported_events` after line 507. -/
def reported_events (K : Consts) (afd_events registered_events : Nat) : Nat :=
  translate_afd_events K afd_events &&& registered_events

/-- The value of `afd_events` after lines 475-481. -/
def completion_afd_events (o : epoll_op_s) : Nat :=
  if o.NumberOfHandles = 0 then 0 else o.Events

/-- The condition of the re-arm branch, line 511:
`!registered_events & EPOLLONESHOT || reported_events == 0`. -/
def rearm_condition (K : Consts) (registered_events reported : Nat) : Bool :=
  decide (lnot registered_events &&& K.EPOLLONESHOT ≠ 0 ∨ reported = 0)

/-- The statements of the re-arm branch (lines 512-521). -/
def epoll_wait_rearm (st : State) (sock_data : Ptr) : Except Fault State :=
  match st.sock_at sock_data with
  | .error e => .error e
  | .ok sd =>
    if sd.attn ≠ 0 then .error (.assertion 512)
    else if st.port.attn = NULL then
      match st.modify_sock sock_data
          (fun r => { r with attn_next := NULL, attn_prev := NULL }) with
      | .error e => .error e
      | .ok st1 => .ok (st1.set_port fun pd => { pd with attn := sock_data })
    else
      match st.modify_sock sock_data
          (fun r => { r with attn_prev := NULL, attn_next := st.port.attn }) with
      | .error e => .error e
      | .ok st1 =>
        match st1.modify_sock st1.port.attn (fun r => { r with attn_next := sock_data }) with
        | .error e => .error e
        | .ok st2 => .ok (st2.set_port fun pd => { pd with attn := sock_data })

/-- The body of the loop over the dequeued packets (lines 435-528), after the
driver has written its results into the operation.  `events` is the part of the
output buffer written so far, so its length is `num_events`. -/
def epoll_wait_completion (K : Consts) (st : State) (events : List epoll_event)
    (e : OVERLAPPED_ENTRY) : Except Fault (State × List epoll_event) :=
  if e.lpOverlapped ∉ st.kernel then .error .environment
  else
    match st.op_at e.lpOverlapped with
    | .error err => .error err
    | .ok o0 =>
      let o : epoll_op_s :=
        { o0 with Internal := e.Internal, NumberOfHandles := e.NumberOfHandles,
                  Events := e.Events }
      let st0 := (st.set_op e.lpOverlapped o).set_kernel (st.kernel.erase e.lpOverlapped)
      let op := e.lpOverlapped
      let sock_data := o.sock_data
      match st0.sock_at sock_data with
      | .error err => .error err
      | .ok sd =>
        if o.generation < sd.op_generation then
          match st0.free_op op with
          | .error err => .error err
          | .ok st1 => .ok (st1, events)
        else
          let sd1 := { sd with op_generation := 0, submitted_events := 0, free_op := op }
          let st1 := st0.set_sock sock_data sd1
          let registered_events := sd1.events
          if registered_events = TOMBSTONE then
            match st1.free_op op with
            | .error err => .error err
            | .ok st2 =>
              match st2.free_sock sock_data with
              | .error err => .error err
              | .ok st3 => .ok (st3, events)
          else if !NT_SUCCESS o.Internal then
            .ok (st1, events ++ [⟨K.EPOLLERR, sd1.user_data⟩])
          else
            let afd_events := completion_afd_events o
            if afd_events &&& K.AFD_POLL_LOCAL_CLOSE ≠ 0 then
              match st1.free_op op with
              | .error err => .error err
              | .ok st2 =>
                match st2.free_sock sock_data with
                | .error err => .error err
                | .ok st3 => .ok (st3, events)
            else
              let reported := reported_events K afd_events registered_events
              let rearmed :=
                if rearm_condition K registered_events reported then
                  epoll_wait_rearm st1 sock_data
                else .ok st1
              match rearmed with
              | .error err => .error err
              | .ok st2 =>
                if reported ≠ 0 then
                  match st2.sock_at sock_data with
                  | .error err => .error err
                  | .ok sd2 => .ok (st2, events ++ [⟨reported, sd2.user_data⟩])
                else .ok (st2, events)

/-- The loop over the dequeued packets (lines 434-529). -/
def epoll_wait_completions (K : Consts) :
    State → List epoll_event → List OVERLAPPED_ENTRY → Except Fault (State × List epoll_event)
  | st, events, [] => .ok (st, events)
  | st, events, e :: rest =>
    match epoll_wait_completion K st events e with
    | .error err => .error err
    | .ok (st1, events1) => epoll_wait_completions K st1 events1 rest

/-- Answer of one call of `GetQueuedCompletionStatusEx`: its return value, the
value of `GetLastError()` after a failure, the packets it delivered, and the
value `GetTickCount()` has after it. -/
structure gqcs_env where
  result : Bool
  error : Nat
  entries : List OVERLAPPED_ENTRY
  tick : Nat

/-- One call of `GetQueuedCompletionStatusEx` as the program made it: the
capacity `max_entries` and the timeout it passed. -/
structure gqcs_call where
  max_entries : Nat
  timeout : Nat
deriving DecidableEq

/-- What `epoll_wait` leaves behind: return value, the written part of the
output buffer, the state, and the dequeue calls it made, in order. -/
structure wait_result where
  ret : Int
  events : List epoll_event
  st : State
  calls : List gqcs_call

/-- The value of `max_entries` (lines 411-413). -/
def wait_max_entries (maxevents : Int) : Nat :=
  if (64 : Int) > maxevents then (maxevents % (W32 : Int)).toNat else 64

/-- The dequeue loop of `epoll_wait` (lines 404-540).  The list holds the answer
of the system for each turn of the loop; `calls` are the dequeue calls made in
earlier turns. -/
def epoll_wait_dequeue (K : Consts) (maxevents timeout : Int) (due : Nat) :
    State → Nat → List gqcs_call → List gqcs_env → Except Fault wait_result
  | _, _, _, [] => .error .fuel
  | st, gqcs_timeout, calls, env :: rest =>
    let max_entries := wait_max_entries maxevents
    let calls1 := calls ++ [⟨max_entries, gqcs_timeout⟩]
    if !env.result then
      if env.error = WAIT_TIMEOUT then .ok ⟨0, [], st, calls1⟩
      else .ok ⟨-1, [], st, calls1⟩
    else if max_entries < env.entries.length then .error .environment
    else
      let count := env.entries.length
      let st1 := st.set_port fun pd =>
        { pd with pending_ops_count := (pd.pending_ops_count + W64 - count % W64) % W64 }
      match epoll_wait_completions K st1 [] env.entries with
      | .error err => .error err
      | .ok (st2, events) =>
        if 0 < events.length then .ok ⟨(events.length : Int), events, st2, calls1⟩
        else if 0 < timeout then
          epoll_wait_dequeue K maxevents timeout due st2
            ((due + W32 - env.tick % W32) % W32) calls1 rest
        else .ok ⟨0, events, st2, calls1⟩

/-- Answers of the system calls made by `epoll_wait`: those of `afd_poll` for
the drain loop, the value of `GetTickCount()` at line 394, and those of the
dequeue loop. -/
structure wait_env where
  afd : List afd_poll_env
  tick : Nat
  gqcs : List gqcs_env

/-- The value of `gqcs_timeout` after lines 393-400. -/
def wait_initial_timeout (timeout : Int) : Nat :=
  if 0 < timeout then timeout.toNat % W32
  else if timeout = 0 then 0
  else INFINITE

/-- The function `epoll_wait` (line 366). -/
def epoll_wait (K : Consts) (st : State) (maxevents timeout : Int) (env : wait_env) :
    Except Fault wait_result :=
  match epoll_wait_drain K st env.afd with
  | .error e => .error e
  | .ok st1 =>
    let due := if 0 < timeout then (env.tick % W32 + timeout.toNat) % W32 else 0
    epoll_wait_dequeue K maxevents timeout due st1 (wait_initial_timeout timeout) [] env.gqcs

/-! ## epoll_close -/

/-- Answers of the system calls made by `epoll_close`: the return value of
`closesocket` for each cache slot, those of the dequeue calls, and the return
value of `CloseHandle`. -/
structure close_env where
  closesocket : Nat → Int
  gqcs : List gqcs_env
  CloseHandle : Bool

/-- The loop over the helper sockets of `epoll_close` (lines 552-560), from slot
`i` on: the slots after the loop, and whether it ran to its end. -/
def epoll_close_peers (closesocket : Nat → Int) : Nat → List Nat → List Nat × Bool
  | _, [] => ([], true)
  | i, peer_sock :: rest =>
    if peer_sock ≠ 0 ∧ peer_sock ≠ INVALID_SOCKET then
      if closesocket i ≠ 0 then (peer_sock :: rest, false)
      else
        let (rest1, done) := epoll_close_peers closesocket (i + 1) rest
        (0 :: rest1, done)
    else
      let (rest1, done) := epoll_close_peers closesocket (i + 1) rest
      (peer_sock :: rest1, done)

/-- The loop of `epoll_close` that frees the dequeued operations
(lines 585-590). -/
def epoll_close_free_ops : State → List OVERLAPPED_ENTRY → Except Fault State
  | st, [] => .ok st
  | st, e :: rest =>
    if e.lpOverlapped ∉ st.kernel then .error .environment
    else
      match (st.set_kernel (st.kernel.erase e.lpOverlapped)).free_op e.lpOverlapped with
      | .error err => .error err
      | .ok st1 => epoll_close_free_ops st1 rest

/-- The loop of `epoll_close` that awaits the pending operations
(lines 566-591): the state after it, and whether it ran to its end. -/
def epoll_close_await : State → List gqcs_env → Except Fault (State × Bool)
  | st, [] => if 0 < st.port.pending_ops_count then .error .fuel else .ok (st, true)
  | st, env :: rest =>
    if 0 < st.port.pending_ops_count then
      if !env.result then .ok (st, false)
      else if 64 < env.entries.length then .error .environment
      else
        let count := env.entries.length
        let st1 := st.set_port fun pd =>
          { pd with pending_ops_count := (pd.pending_ops_count + W64 - count % W64) % W64 }
        match epoll_close_free_ops st1 env.entries with
        | .error err => .error err
        | .ok st2 => epoll_close_await st2 rest
    else .ok (st, true)

/-- The loop of `epoll_close` that empties the registry (lines 594-600); the
first argument bounds the number of turns. -/
def epoll_close_tree : Nat → State → Except Fault State
  | 0, st =>
    match st.port.sock_data_tree with
    | [] => .ok st
    | _ :: _ => .error .fuel
  | n + 1, st =>
    match st.port.sock_data_tree with
    | [] => .ok st
    | sock_data :: _ =>
      let st1 := RB_REMOVE st sock_data
      match st1.sock_at sock_data with
      | .error err => .error err
      | .ok sd =>
        let freed := if sd.free_op ≠ NULL then st1.free_op sd.free_op else .ok st1
        match freed with
        | .error err => .error err
        | .ok st2 =>
          match st2.free_sock sock_data with
          | .error err => .error err
          | .ok st3 => epoll_close_tree n st3

/-- The function `epoll_close` (line 544): the return value and the memory it
leaves.  The return value of `CloseHandle` is not looked at. -/
def epoll_close (st : State) (env : close_env) : Except Fault (Int × State) :=
  let (peers, done) := epoll_close_peers env.closesocket 0 st.port.peer_sockets
  let st1 := st.set_port fun pd => { pd with peer_sockets := peers }
  if !done then .ok (-1, st1)
  else
    match epoll_close_await st1 env.gqcs with
    | .error err => .error err
    | .ok (st2, false) => .ok (-1, st2)
    | .ok (st2, true) =>
      match epoll_close_tree st2.port.sock_data_tree.length st2 with
      | .error err => .error err
      | .ok st3 => .ok (0, st3)

/-! ## Reachable states -/

/-- States a port can be in: the one `epoll_create` returns, and those left by
a call of `epoll_ctl` or `epoll_wait` that returned, whatever its arguments and
the answers of the system. -/
inductive Reachable (K : Consts) : State → Prop where
  | create (malloc_ok : Bool) (iocp : Nat) (st : State) :
      epoll_create K malloc_ok iocp = some st → Reachable K st
  | ctl (st : State) (op : Int) (sock : Nat) (event : epoll_event) (env : ctl_env)
      (r : ctl_result) :
      Reachable K st → epoll_ctl K st op sock event env = .ok r → Reachable K r.st
  | wait (st : State) (maxevents timeout : Int) (env : wait_env) (r : wait_result) :
      Reachable K st → epoll_wait K st maxevents timeout env = .ok r → Reachable K r.st

/-! ## The translation of driver events in the words of the specification -/

/-- The map `T` from driver bits to readiness bits as the specification words
it (section 4.3, step 6): each rule contributes its readiness bits when its
driver bit is present. -/
def readiness_of_driver_bits (K : Consts) (afd : Nat) : Nat :=
  (if afd &&& K.AFD_POLL_RECEIVE ≠ 0 ∨ afd &&& K.AFD_POLL_ACCEPT ≠ 0
    then K.EPOLLIN ||| K.EPOLLRDNORM else 0)
  ||| (if afd &&& K.AFD_POLL_RECEIVE_EXPEDITED ≠ 0 then K.EPOLLIN ||| K.EPOLLRDBAND else 0)
  ||| (if afd &&& K.AFD_POLL_SEND ≠ 0
    then K.EPOLLOUT ||| K.EPOLLWRNORM ||| K.EPOLLWRBAND else 0)
  ||| (if afd &&& K.AFD_POLL_DISCONNECT ≠ 0 ∧ afd &&& K.AFD_POLL_ABORT = 0
    then K.EPOLLRDHUP ||| K.EPOLLIN ||| K.EPOLLRDNORM ||| K.EPOLLRDBAND else 0)
  ||| (if afd &&& K.AFD_POLL_ABORT ≠ 0 then K.EPOLLHUP ||| K.EPOLLERR else 0)
  ||| (if afd &&& K.AFD_POLL_CONNECT ≠ 0
    then K.EPOLLOUT ||| K.EPOLLWRNORM ||| K.EPOLLWRBAND else 0)
  ||| (if afd &&& K.AFD_POLL_CONNECT_FAIL ≠ 0 then K.EPOLLERR else 0)

/-- Driver events of a completion packet as the program reads them: none when
the packet carries no handle. -/
def OVERLAPPED_ENTRY.afd_events (e : OVERLAPPED_ENTRY) : Nat :=
  if e.NumberOfHandles = 0 then 0 else e.Events

/-! ## Concrete states -/

/-- A registration of socket `100` with registered events `in | err | hup`
(no one-shot) and user data `0xAA`, after one successful submission. -/
def demo_sock : epoll_sock_data_s :=
  { sock := 100, base_sock := 100, peer_sock := 50, op_generation := 1,
    submitted_events := 0, events := 0x19, attn := 0, user_data := 0xAA,
    free_op := 0, attn_prev := 0, attn_next := 0 }

/-- The operation submitted for `demo_sock`, which lives at address `5`. -/
def demo_op : epoll_op_s :=
  { Internal := 0, Exclusive := true, NumberOfHandles := 1, Timeout := 2 ^ 63 - 1,
    Handle := 100, Status := 0, Events := 0x1b3, generation := 1, sock_data := 5 }

/-- The port after `epoll_create`, `EPOLL_CTL_ADD` of socket `100` with mask
`in` and a first `epoll_wait` that submitted the poll request and timed out:
the registration is at address `5`, its operation at address `7` is in
flight. -/
def demo_inflight : State :=
  { port := { iocp := 1, peer_sockets := [50, 0, 0], sock_data_tree := [5], attn := 0,
              pending_ops_count := 1 },
    socks := fun p => if p = 5 then some demo_sock else none,
    ops := fun p => if p = 7 then some demo_op else none,
    kernel := [7] }

/-- A completion of the operation at address `7` with a successful status that
reports the driver bit `receive`. -/
def demo_receive : OVERLAPPED_ENTRY :=
  { lpOverlapped := 7, Internal := 0, NumberOfHandles := 1, Events := 1 }

/-- The port right after `epoll_create`. -/
def demo_created : State :=
  { port := { iocp := 1, peer_sockets := [0, 0, 0], sock_data_tree := [], attn := 0,
              pending_ops_count := 0 },
    socks := fun _ => none, ops := fun _ => none, kernel := [] }

/-- Answers of the system for the `EPOLL_CTL_ADD` of socket `100`: the socket
belongs to the first provider, the helper socket `50` is created, the
registration is allocated at address `5` and its operation at address `7`. -/
def demo_add_env : ctl_env :=
  { getsockopt := 0, ProviderId := 101,
    peer := { WSASocketW := 50, SetHandleInformation := true, CreateIoCompletionPort := 1 },
    malloc_sock_data := 5, malloc_op := 7 }

/-- The port after `EPOLL_CTL_ADD` of socket `100` with mask `in` and user data
`0xAA`: the registration is on the attention list with its spare operation. -/
def demo_added : State :=
  { port := { iocp := 1, peer_sockets := [50, 0, 0], sock_data_tree := [5], attn := 5,
              pending_ops_count := 0 },
    socks := fun p => if p = 5 then some
      { demo_sock with op_generation := 0, attn := 1, free_op := 7 } else none,
    ops := fun p => if p = 7 then some epoll_op_s.uninit else none,
    kernel := [] }

/-- Answers of the system for an `epoll_wait` with one submission that the
driver accepts as pending, and a dequeue call that times out. -/
def demo_wait_env : wait_env :=
  { afd := [⟨1, WSA_IO_PENDING⟩], tick := 0, gqcs := [⟨false, WAIT_TIMEOUT, [], 0⟩] }

/-- A completion of the operation at address `7` with a successful status that
reports only the driver bit `send`, which the mask `in | err | hup` does not ask
for. -/
def demo_send : OVERLAPPED_ENTRY :=
  { lpOverlapped := 7, Internal := 0, NumberOfHandles := 1, Events := 4 }

/-- Answers of the system for an `epoll_wait` that submits nothing and whose
first dequeue call delivers the packet `demo_send`. -/
def demo_idle_env : wait_env :=
  { afd := [], tick := 0, gqcs := [⟨true, 0, [demo_send], 0⟩] }

/-- Answers of the system for an `epoll_wait` that submits nothing and whose
first dequeue call delivers the packet `demo_receive`. -/
def demo_report_env : wait_env :=
  { afd := [], tick := 0, gqcs := [⟨true, 0, [demo_receive], 0⟩] }

/-- What `epoll_wait` with capacity 4 and timeout 1000 leaves behind on
`demo_inflight` under `demo_report_env`. -/
def demo_report_result : wait_result :=
  match epoll_wait abi demo_inflight 4 1000 demo_report_env with
  | .ok r => r
  | .error _ => ⟨-1, [], demo_inflight, []⟩

/-- Answers of the system for a second `EPOLL_CTL_ADD` of socket `100`, when
the handle now belongs to the second provider: the helper socket `51` is
created, and `malloc` hands out the addresses `6` and `8`. -/
def demo_exists_env : ctl_env :=
  { getsockopt := 0, ProviderId := 102,
    peer := { WSASocketW := 51, SetHandleInformation := true, CreateIoCompletionPort := 1 },
    malloc_sock_data := 6, malloc_op := 8 }

/-- Answers of the system for an `epoll_close` in which every `closesocket`
succeeds and `CloseHandle` fails. -/
def demo_close_env : close_env :=
  { closesocket := fun _ => 0, gqcs := [], CloseHandle := false }

/-- The registration of socket `100` as it is in `demo_added`. -/
def demo_added_sock : epoll_sock_data_s :=
  { demo_sock with op_generation := 0, attn := 1, free_op := 7 }

/-- A registered mask has the two mandatory bits: both tests that
`epoll__submit_poll_op` asserts at lines 166 and 167 succeed on it. -/
def mandatory_bits (K : Consts) (events : Nat) : Prop :=
  events &&& K.EPOLLERR ≠ 0 ∧ events &&& K.EPOLLHUP ≠ 0

/-- Every registration in memory has the two mandatory bits in its registered
events. -/
def heap_mandatory (K : Consts) (st : State) : Prop :=
  ∀ p r, st.socks p = some r → mandatory_bits K r.events

/-- The fault is not a failure of one of the two assertions on the mandatory
bits, at lines 166 and 167. -/
def benign (f : Fault) : Prop :=
  f ≠ .assertion 166 ∧ f ≠ .assertion 167

/-! ## The driver mask of a submission in the words of the specification -/

/-- The driver mask of a poll request as claim C11 words it: the three
unconditional bits, receive and accept for `in` or read-normal,
receive-expedited for read-band only, send and connect for `out`, write-normal
or read-band. -/
def driver_mask_claimed (K : Consts) (events : Nat) : Nat :=
  (K.AFD_POLL_ABORT ||| K.AFD_POLL_CONNECT_FAIL ||| K.AFD_POLL_LOCAL_CLOSE)
  ||| (if events &&& K.EPOLLIN ≠ 0 ∨ events &&& K.EPOLLRDNORM ≠ 0
    then K.AFD_POLL_RECEIVE ||| K.AFD_POLL_ACCEPT else 0)
  ||| (if events &&& K.EPOLLRDBAND ≠ 0 then K.AFD_POLL_RECEIVE_EXPEDITED else 0)
  ||| (if events &&& K.EPOLLOUT ≠ 0 ∨ events &&& K.EPOLLWRNORM ≠ 0
      ∨ events &&& K.EPOLLRDBAND ≠ 0
    then K.AFD_POLL_SEND ||| K.AFD_POLL_CONNECT else 0)

/-- The driver mask of a poll request as amended: as `driver_mask_claimed`,
except that receive-expedited is asked for when the events contain `in` or
read-band. -/
def driver_mask_amended (K : Consts) (events : Nat) : Nat :=
  (K.AFD_POLL_ABORT ||| K.AFD_POLL_CONNECT_FAIL ||| K.AFD_POLL_LOCAL_CLOSE)
  ||| (if events &&& K.EPOLLIN ≠ 0 ∨ events &&& K.EPOLLRDNORM ≠ 0
    then K.AFD_POLL_RECEIVE ||| K.AFD_POLL_ACCEPT else 0)
  ||| (if events &&& K.EPOLLIN ≠ 0 ∨ events &&& K.EPOLLRDBAND ≠ 0
    then K.AFD_POLL_RECEIVE_EXPEDITED else 0)
  ||| (if events &&& K.EPOLLOUT ≠ 0 ∨ events &&& K.EPOLLWRNORM ≠ 0
      ∨ events &&& K.EPOLLRDBAND ≠ 0
    then K.AFD_POLL_SEND ||| K.AFD_POLL_CONNECT else 0)

/-- Answer of a driver call `afd_poll` that succeeds at once. -/
def demo_afd_ok : afd_poll_env :=
  { result := 0, error := 0 }

/-- The state that the successful submission for the registration at address
`5` leaves behind on `demo_added`. -/
def demo_submitted : State :=
  match epoll__submit_poll_op abi demo_added 5 demo_afd_ok with
  | .ok r => r.2
  | .error _ => demo_added

/-- Answers of the system for an `EPOLL_CTL_MOD`: `malloc` hands out the
address `9`. -/
def demo_mod_env : ctl_env :=
  { demo_add_env with malloc_op := 9 }

/-- What `EPOLL_CTL_MOD` of socket `100` with the new mask `in | out` leaves
behind on `demo_inflight`, where the poll request of the socket is in flight. -/
def demo_modified_result : ctl_result :=
  match epoll_ctl abi demo_inflight abi.EPOLL_CTL_MOD 100 ⟨5, 0xAA⟩ demo_mod_env with
  | .ok r => r
  | .error _ => ⟨-1, none, demo_inflight⟩

/-- The state after that `EPOLL_CTL_MOD`. -/
def demo_modified : State := demo_modified_result.st

/-- What an `epoll_wait` with timeout 0 leaves behind on `demo_inflight` when
its dequeue call delivers the packet `demo_send`, which reports nothing the
registration asks for. -/
def demo_rearmed_result : wait_result :=
  match epoll_wait abi demo_inflight 4 0 demo_idle_env with
  | .ok r => r
  | .error _ => ⟨-1, [], demo_inflight, []⟩

/-- The state after that `epoll_wait`: the registration was re-armed. -/
def demo_rearmed : State := demo_rearmed_result.st

/-- Answers of the system for an `epoll_wait` with a positive timeout that took
the tick count 0 at its start: the first dequeue call delivers the packet
`demo_send` and the tick count is 11 after it, the second call times out. -/
def demo_late_env : wait_env :=
  { afd := [], tick := 0,
    gqcs := [⟨true, 0, [demo_send], 11⟩, ⟨false, WAIT_TIMEOUT, [], 11⟩] }

/-- What `EPOLL_CTL_ADD` of socket `100` with the mask `0xFFFFFFFF` leaves
behind on the fresh port. -/
def demo_allbits_result : ctl_result :=
  match epoll_ctl abi demo_created abi.EPOLL_CTL_ADD 100 ⟨0xFFFFFFFF, 0xAA⟩ demo_add_env with
  | .ok r => r
  | .error _ => ⟨-1, none, demo_created⟩

/-- The state after that `EPOLL_CTL_ADD`. -/
def demo_allbits : State := demo_allbits_result.st

/-- Answers of the system for an `epoll_wait` whose one submission succeeds and
whose dequeue call delivers the packet `demo_receive`. -/
def demo_allbits_env : wait_env :=
  { afd := [demo_afd_ok], tick := 0, gqcs := [⟨true, 0, [demo_receive], 0⟩] }

/-! ## A registration between its add and the next wait -/

/-- The fields of a registration of `sock` with requested mask `m` that has
never been submitted: generation and submitted events zero, the registered
events `m | ERR | HUP`, the `attn` flag set, and the spare operation `q`. -/
def armed_record (K : Consts) (sock m : Nat) (q : Ptr) (sd : epoll_sock_data_s) : Prop :=
  sd.sock = sock ∧ sd.op_generation = 0 ∧ sd.submitted_events = 0
  ∧ sd.events = (m ||| K.EPOLLERR ||| K.EPOLLHUP) % W32 ∧ sd.attn = 1 ∧ sd.free_op = q

/-- What `EPOLL_CTL_ADD` of socket `100` with mask `in` leaves behind on the
fresh port. -/
def demo_first_add : ctl_result :=
  match epoll_ctl_add abi demo_created 100 ⟨1, 0xAA⟩ demo_add_env with
  | .ok r => r
  | .error _ => ⟨-1, none, demo_created⟩

/-! ## A registration after its delete -/

/-- One call of the driver function `afd_poll` as `epoll__submit_poll_op` makes
it at line 189: the helper socket it is made on, the handle and the driver
events in the poll payload of the operation, the operation, and the
registration that the operation points back to. -/
structure afd_poll_call where
  peer_sock : Nat
  Handle : Nat
  Events : Nat
  op : Ptr
  sock_data : Ptr
deriving DecidableEq

/-- The call of `afd_poll` that `epoll__submit_poll_op` makes for the
registration at `sock_data` (lines 159-191), `none` when the function stops
before line 189. -/
def submit_poll_call (K : Consts) (st : State) (sock_data : Ptr) : Option afd_poll_call :=
  match st.sock_at sock_data with
  | .error _ => none
  | .ok sd =>
    let op := sd.free_op
    let events := sd.events
    if op = NULL then none
    else if events &&& K.EPOLLERR = 0 then none
    else if events &&& K.EPOLLHUP = 0 then none
    else if INT_MAX < sd.op_generation + 1 then none
    else
      match st.op_at op with
      | .error _ => none
      | .ok _ =>
        some ⟨sd.peer_sock, sd.base_sock, submit_afd_events K events, op, sock_data⟩

/-- The drain loop of `epoll_wait` (lines 374-389) together with the calls of
`afd_poll` that it makes, in order. -/
def epoll_wait_drain_traced (K : Consts) :
    State → List afd_poll_env → List afd_poll_call × Except Fault State
  | st, [] =>
    if st.port.attn = NULL then ([], .ok (st.set_port fun pd => { pd with attn := NULL }))
    else ([], .error .fuel)
  | st, env :: rest =>
    if st.port.attn = NULL then ([], .ok (st.set_port fun pd => { pd with attn := NULL }))
    else
      let sock_data := st.port.attn
      match st.sock_at sock_data with
      | .error e => ([], .error e)
      | .ok sd =>
        if sd.attn = 0 then ([], .error (.assertion 376))
        else
          let calls :=
            if sd.events &&& K.EPOLL_EVENT_MASK &&& bnot32 sd.submitted_events ≠ 0 then
              (submit_poll_call K st sock_data).toList
            else []
          let submitted :=
            if sd.events &&& K.EPOLL_EVENT_MASK &&& bnot32 sd.submitted_events ≠ 0 then
              (epoll__submit_poll_op K st sock_data env).map Prod.snd
            else .ok st
          match submitted with
          | .error e => (calls, .error e)
          | .ok st1 =>
            match st1.sock_at sock_data with
            | .error e => (calls, .error e)
            | .ok sd1 =>
              let st2 := st1.set_port fun pd => { pd with attn := sd1.attn_next }
              match st2.modify_sock sock_data
                  (fun r => { r with attn_prev := NULL, attn_next := NULL, attn := 0 }) with
              | .error e => (calls, .error e)
              | .ok st3 =>
                ((calls ++ (epoll_wait_drain_traced K st3 rest).1),
                  (epoll_wait_drain_traced K st3 rest).2)

/-- The test of the drain loop at line 379: a poll request has to be submitted
for the registration. -/
def needs_submission (K : Consts) (sd : epoll_sock_data_s) : Bool :=
  decide (sd.events &&& K.EPOLL_EVENT_MASK &&& bnot32 sd.submitted_events ≠ 0)

/-- The registration can be submitted: its registered events have the two
mandatory bits, it has a spare operation that is allocated, and its generation
can be incremented. -/
def submit_ready (K : Consts) (st : State) (sd : epoll_sock_data_s) : Prop :=
  mandatory_bits K sd.events ∧ sd.free_op ≠ NULL ∧ (st.ops sd.free_op).isSome = true
  ∧ sd.op_generation + 1 ≤ INT_MAX

/-- The attention list from `h` on consists of the registrations at the
addresses `l`, in this order: each is allocated, has its `attn` flag set and
points to the next one with `attn_next`, the last one to `NULL`; and each one
that needs a submission can be submitted. -/
def attn_chain (K : Consts) (st : State) : Ptr → List Ptr → Prop
  | h, [] => h = NULL
  | h, x :: l =>
    h = x ∧ x ≠ NULL ∧ ∃ sd, st.socks x = some sd ∧ sd.attn ≠ 0
      ∧ (needs_submission K sd = true → submit_ready K st sd)
      ∧ attn_chain K st sd.attn_next l

/-- The call of `afd_poll` that a turn of the drain loop makes for the
registration at `x`, `none` when the registration needs no submission. -/
def drain_call (K : Consts) (st : State) (x : Ptr) : Option afd_poll_call :=
  match st.sock_at x with
  | .error _ => none
  | .ok sd => if needs_submission K sd then submit_poll_call K st x else none

/-- The driver has taken the request: the test of lines 192-199 does not return
`-1`. -/
def afd_accepted (env : afd_poll_env) : Bool :=
  !decide (env.result ≠ 0 ∧ env.error ≠ WSA_IO_PENDING)

/-- The operations that the drain loop hands to the driver when it goes through
the registrations `l` and the driver answers with `envs`: those of the calls
that the driver takes. -/
def drain_in_flight (K : Consts) (st : State) : List Ptr → List afd_poll_env → List Ptr
  | x :: l, env :: rest =>
    (match drain_call K st x with
      | some c => if afd_accepted env then [c.op] else []
      | none => [])
    ++ drain_in_flight K st l rest
  | _, _ => []

/-- A call of `epoll_ctl` between the add of a socket and the next
`epoll_wait`: the add of another socket, or a modify of the socket itself. -/
inductive ctl_step where
  | add (sock : Nat) (event : epoll_event) (env : ctl_env)
  | mod (event : epoll_event) (env : ctl_env)

/-- Successive calls of `epoll_ctl` after the add of `sock`, each returning 0:
the state after the last one, `none` when a call fails or does not return 0. -/
def epoll_ctl_steps (K : Consts) (sock : Nat) : State → List ctl_step → Option State
  | st, [] => some st
  | st, .add s event env :: rest =>
    match epoll_ctl_add K st s event env with
    | .ok r => if r.ret = 0 then epoll_ctl_steps K sock r.st rest else none
    | .error _ => none
  | st, .mod event env :: rest =>
    match epoll_ctl_mod K st sock event env with
    | .ok r => if r.ret = 0 then epoll_ctl_steps K sock r.st rest else none
    | .error _ => none

/-- The mask of the last modify among the calls, `m` when there is none. -/
def final_mask : Nat → List ctl_step → Nat
  | m, [] => m
  | m, .add _ _ _ :: rest => final_mask m rest
  | _, .mod event _ :: rest => final_mask event.events rest

/-- The registrations that the adds among the calls allocate, the last one
first. -/
def added_blocks : List ctl_step → List Ptr
  | [] => []
  | .add _ _ env :: rest => added_blocks rest ++ [env.malloc_sock_data]
  | .mod _ _ :: rest => added_blocks rest

/-- The registration of `sock` at address `p` is on the attention list `l`
with requested mask `m` and has never been submitted: the list is well formed,
the registry finds the registration under `sock`, and its spare operation at
address `q` is allocated. -/
def tracked (K : Consts) (st : State) (l : List Ptr) (p q : Ptr) (sock m : Nat) : Prop :=
  attn_chain K st st.port.attn l ∧ l.Nodup ∧ p ∈ l ∧ p ≠ NULL ∧ q ≠ NULL
  ∧ (st.ops q).isSome = true
  ∧ RB_FIND st (lookup_key sock) st.port.sock_data_tree = .ok p
  ∧ ∃ sd, st.socks p = some sd ∧ armed_record K sock m q sd ∧ sd.base_sock = sock

/-- The calls between the add of socket `100` and the next `epoll_wait`: socket
`200` is added with mask `out`, then socket `100` is modified to `in | out`. -/
def demo_steps : List ctl_step :=
  [.add 200 ⟨4, 0xBB⟩ demo_exists_env, .mod ⟨5, 0xAC⟩ demo_mod_env]

/-- The state after the add of socket `100` on the fresh port and the calls
`demo_steps`. -/
def demo_stepped : State :=
  match epoll_ctl_steps abi 100 demo_first_add.st demo_steps with
  | some st => st
  | none => demo_created

/-- What `EPOLL_CTL_ADD` of socket `200` with mask `out` leaves behind on
`demo_inflight`, where the poll request of socket `100` is in flight: the new
registration is at address `6`, its spare operation at address `8`. -/
def demo_blocked_add : ctl_result :=
  match epoll_ctl abi demo_inflight abi.EPOLL_CTL_ADD 200 ⟨4, 0xBB⟩ demo_exists_env with
  | .ok r => r
  | .error _ => ⟨-1, none, demo_inflight⟩

/-- What the following `EPOLL_CTL_MOD` of socket `200` to the mask `in | out`
leaves behind. -/
def demo_blocked_mod : ctl_result :=
  match epoll_ctl abi demo_blocked_add.st abi.EPOLL_CTL_MOD 200 ⟨5, 0xBC⟩ demo_mod_env with
  | .ok r => r
  | .error _ => ⟨-1, none, demo_inflight⟩

/-- What the following `EPOLL_CTL_MOD` of socket `100` to the mask `in | out`
leaves behind. -/
def demo_blocked : ctl_result :=
  match epoll_ctl abi demo_blocked_mod.st abi.EPOLL_CTL_MOD 100 ⟨5, 0xAA⟩ demo_mod_env with
  | .ok r => r
  | .error _ => ⟨-1, none, demo_inflight⟩

/-! ## Basic facts about memory access -/

theorem lor_eq_zero_iff (a b : Nat) : a ||| b = 0 ↔ a = 0 ∧ b = 0 := by
  constructor
  · intro h
    have hbit : ∀ i, (a.testBit i || b.testBit i) = false := by
      intro i
      rw [← Nat.testBit_or, h, Nat.zero_testBit]
    constructor
    · apply Nat.eq_of_testBit_eq
      intro i
      have := hbit i
      simp only [Bool.or_eq_false_iff] at this
      simp [this.1]
    · apply Nat.eq_of_testBit_eq
      intro i
      have := hbit i
      simp only [Bool.or_eq_false_iff] at this
      simp [this.2]
  · rintro ⟨rfl, rfl⟩
    simp

theorem land_lor_ne_zero_iff (x a b : Nat) :
    x &&& (a ||| b) ≠ 0 ↔ x &&& a ≠ 0 ∨ x &&& b ≠ 0 := by
  rw [Nat.and_or_distrib_left, Ne, lor_eq_zero_iff]
  tauto

theorem ite_lor_eq (c : Prop) [Decidable c] (r x : Nat) :
    (if c then r ||| x else r) = r ||| (if c then x else 0) := by
  split <;> simp

theorem sock_at_ok_iff (st : State) (p : Ptr) (r : epoll_sock_data_s) :
    st.sock_at p = .ok r ↔ p ≠ NULL ∧ st.socks p = some r := by
  unfold State.sock_at
  by_cases hp : p = NULL
  · simp [hp]
  · cases h : st.socks p <;> simp [hp]

theorem op_at_ok_iff (st : State) (p : Ptr) (o : epoll_op_s) :
    st.op_at p = .ok o ↔ p ≠ NULL ∧ st.ops p = some o := by
  unfold State.op_at
  by_cases hp : p = NULL
  · simp [hp]
  · cases h : st.ops p <;> simp [hp]

theorem translate_afd_events_eq (K : Consts) (afd : Nat) :
    translate_afd_events K afd = readiness_of_driver_bits K afd := by
  unfold translate_afd_events readiness_of_driver_bits
  simp only [ite_lor_eq, land_lor_ne_zero_iff, not_not]

theorem sock_at_congr (st st' : State) (p : Ptr) (h : st'.socks = st.socks) :
    st'.sock_at p = st.sock_at p := by
  unfold State.sock_at
  rw [h]

theorem sock_at_set_sock_self (st : State) (p : Ptr) (r : epoll_sock_data_s) (hp : p ≠ NULL) :
    (st.set_sock p r).sock_at p = .ok r := by
  simp [State.sock_at, State.set_sock, hp]

theorem reported_ne_zero_no_rearm (K : Consts) (registered reported : Nat)
    (h : reported &&& registered ≠ 0) :
    rearm_condition K registered (reported &&& registered) = false := by
  have hreg : registered ≠ 0 := by
    rintro rfl
    simp at h
  simp [rearm_condition, lnot, hreg, h]

/-- C1: for the completion of the current operation of a live registration with
a successful status and no local-close bit, the mask `epoll_wait` computes is
`T(afd) AND events`; when it is non-zero exactly one record carrying it and the
registration's user data is appended to the output, when it is zero no record is
appended, and the mask has no bit outside the registered events. -/
theorem C1_completion_mask (K : Consts) (st : State) (events : List epoll_event)
    (e : OVERLAPPED_ENTRY) (o : epoll_op_s) (sd : epoll_sock_data_s)
    (hk : e.lpOverlapped ∈ st.kernel)
    (ho : st.op_at e.lpOverlapped = .ok o)
    (hs : st.sock_at o.sock_data = .ok sd)
    (hcur : ¬ o.generation < sd.op_generation)
    (hlive : sd.events ≠ TOMBSTONE)
    (hstatus : NT_SUCCESS e.Internal = true)
    (hclose : e.afd_events &&& K.AFD_POLL_LOCAL_CLOSE = 0) :
    (readiness_of_driver_bits K e.afd_events &&& sd.events ≠ 0 →
      ∃ st', epoll_wait_completion K st events e
        = .ok (st', events ++
            [⟨readiness_of_driver_bits K e.afd_events &&& sd.events, sd.user_data⟩])) ∧
    (readiness_of_driver_bits K e.afd_events &&& sd.events = 0 →
      ∀ st' events', epoll_wait_completion K st events e = .ok (st', events') →
        events' = events) ∧
    (readiness_of_driver_bits K e.afd_events &&& sd.events) &&& sd.events
      = readiness_of_driver_bits K e.afd_events &&& sd.events := by
  have hp : o.sock_data ≠ NULL := ((sock_at_ok_iff _ _ _).1 hs).1
  have hs0 : ∀ (o' : epoll_op_s) (k : List Ptr),
      ((st.set_op e.lpOverlapped o').set_kernel k).sock_at o.sock_data = .ok sd := by
    intro o' k
    exact (sock_at_congr st _ _ rfl).trans hs
  have hafd : completion_afd_events
      { o with Internal := e.Internal, NumberOfHandles := e.NumberOfHandles, Events := e.Events }
      = e.afd_events := rfl
  refine ⟨?_, ?_, ?_⟩
  · intro hmask
    have hno := reported_ne_zero_no_rearm K sd.events _ hmask
    unfold epoll_wait_completion
    simp only [hk, not_true_eq_false, if_false, ho, hs0, hcur, hafd, hstatus, hclose,
      reported_events, translate_afd_events_eq, hlive, ne_eq, not_true_eq_false,
      Bool.not_true, Bool.false_eq_true, hno, hmask, not_false_eq_true, if_true,
      sock_at_set_sock_self _ _ _ hp]
    exact ⟨_, rfl⟩
  · intro hmask st' events' hrun
    unfold epoll_wait_completion at hrun
    simp only [hk, not_true_eq_false, if_false, ho, hs0, hcur, hafd, hstatus, hclose,
      reported_events, translate_afd_events_eq, hlive, ne_eq, not_true_eq_false,
      Bool.not_true, Bool.false_eq_true, hmask, not_false_eq_true, if_true] at hrun
    split at hrun
    · cases hrun
    · cases hrun
      rfl
  · rw [Nat.and_assoc, Nat.and_self]

/-- Witness of C1: the completion that reports `receive` for the registration
with mask `in | err | hup` appends the single record `{in, 0xAA}`. -/
theorem C1_completion_mask_witness :
    ∃ st', epoll_wait_completion abi demo_inflight [] demo_receive
      = .ok (st', [] ++ [⟨readiness_of_driver_bits abi demo_receive.afd_events &&& demo_sock.events,
          demo_sock.user_data⟩]) :=
  (C1_completion_mask abi demo_inflight [] demo_receive demo_op demo_sock
    (by decide) rfl rfl (by decide) (by decide) (by decide) (by decide)).1 (by decide)

/-- C2, evaluated on the code: the registration has no one-shot bit and its
completion reports `in`, yet after the completion is processed the attention
list is still empty, so the registration was not put back on it. -/
theorem C2_not_rearmed_without_oneshot :
    (epoll_wait_completion abi demo_inflight [] demo_receive).map
        (fun r => (r.1.port.attn, r.2))
      = .ok (NULL, [⟨abi.EPOLLIN, 0xAA⟩])
    ∧ demo_sock.events &&& abi.EPOLLONESHOT = 0 := by
  constructor
  · rfl
  · decide

theorem state_ext (a b : State) (hp : a.port = b.port) (hs : ∀ p, a.socks p = b.socks p)
    (ho : ∀ p, a.ops p = b.ops p) (hk : a.kernel = b.kernel) : a = b := by
  cases a
  cases b
  simp only [State.mk.injEq]
  exact ⟨hp, funext hs, funext ho, hk⟩

theorem demo_created_reachable : Reachable abi demo_created :=
  Reachable.create true 1 _ rfl

theorem demo_add_run :
    epoll_ctl abi demo_created 1 100 ⟨1, 0xAA⟩ demo_add_env = .ok ⟨0, none, demo_added⟩ := by
  have h : ∃ r, epoll_ctl abi demo_created 1 100 ⟨1, 0xAA⟩ demo_add_env = .ok r
      ∧ r.ret = 0 ∧ r.last_error = none ∧ r.st = demo_added := by
    refine ⟨_, rfl, rfl, rfl, ?_⟩
    apply state_ext
    · rfl
    · intro p
      by_cases hp : p = 5
      · subst hp
        rfl
      · simp [demo_added, State.set_port, State.set_sock, State.set_op, Function.update, hp,
          demo_created, demo_add_env]
    · intro p
      by_cases hp : p = 7
      · subst hp
        rfl
      · simp [demo_added, State.set_port, State.set_sock, State.set_op, Function.update, hp,
          demo_created, demo_add_env]
    · rfl
  obtain ⟨r, hr, h1, h2, h3⟩ := h
  rw [hr]
  cases r
  simp_all

theorem demo_added_reachable : Reachable abi demo_added :=
  Reachable.ctl demo_created 1 100 ⟨1, 0xAA⟩ demo_add_env ⟨0, none, demo_added⟩
    demo_created_reachable demo_add_run

theorem demo_wait_run :
    epoll_wait abi demo_added 4 0 demo_wait_env = .ok ⟨0, [], demo_inflight, [⟨4, 0⟩]⟩ := by
  have h : ∃ r, epoll_wait abi demo_added 4 0 demo_wait_env = .ok r
      ∧ r.ret = 0 ∧ r.events = [] ∧ r.calls = [⟨4, 0⟩] ∧ r.st = demo_inflight := by
    refine ⟨_, rfl, rfl, rfl, rfl, ?_⟩
    apply state_ext
    · rfl
    · intro p
      by_cases hp : p = 5
      · subst hp
        rfl
      · simp [demo_inflight, demo_added, State.set_port, State.set_sock, State.set_op,
          State.set_kernel, Function.update, hp]
    · intro p
      by_cases hp : p = 7
      · subst hp
        rfl
      · simp [demo_inflight, demo_added, State.set_port, State.set_sock, State.set_op,
          State.set_kernel, Function.update, hp]
    · rfl
  obtain ⟨r, hr, h1, h2, h3, h4⟩ := h
  rw [hr]
  cases r
  simp_all

theorem demo_inflight_reachable : Reachable abi demo_inflight :=
  Reachable.wait demo_added 4 0 demo_wait_env ⟨0, [], demo_inflight, [⟨4, 0⟩]⟩
    demo_added_reachable demo_wait_run

/-- C4: a dequeued completion whose operation generation is less than the
current generation of its registration returns without writing an event record,
and leaves every registration, the port record and with it the attention list as
they were; only the stale operation is freed. -/
theorem C4_stale_completion (K : Consts) (st : State) (events : List epoll_event)
    (e : OVERLAPPED_ENTRY) (o : epoll_op_s) (sd : epoll_sock_data_s)
    (hk : e.lpOverlapped ∈ st.kernel)
    (ho : st.op_at e.lpOverlapped = .ok o)
    (hs : st.sock_at o.sock_data = .ok sd)
    (hstale : o.generation < sd.op_generation) :
    ∃ st', epoll_wait_completion K st events e = .ok (st', events)
      ∧ st'.socks = st.socks ∧ st'.port = st.port
      ∧ st'.ops e.lpOverlapped = none := by
  have hp : e.lpOverlapped ≠ NULL := ((op_at_ok_iff _ _ _).1 ho).1
  have hs0 : ∀ (o' : epoll_op_s) (k : List Ptr),
      ((st.set_op e.lpOverlapped o').set_kernel k).sock_at o.sock_data = .ok sd := by
    intro o' k
    exact (sock_at_congr st _ _ rfl).trans hs
  unfold epoll_wait_completion
  simp only [hk, not_true_eq_false, if_false, ho, hs0, hstale, if_true]
  simp [State.free_op, State.op_at, State.set_op, State.set_kernel, hp]

/-- Witness of C4: in the state with socket `100` registered at generation 1, a
completion of an operation of generation 0 is dropped. -/
theorem C4_stale_completion_witness :
    ∃ st', epoll_wait_completion abi
        { demo_inflight with ops := fun p => if p = 7 then some { demo_op with generation := 0 }
                                             else none }
        [] demo_receive = .ok (st', [])
      ∧ st'.socks = demo_inflight.socks ∧ st'.port = demo_inflight.port
      ∧ st'.ops demo_receive.lpOverlapped = none :=
  C4_stale_completion abi
    { demo_inflight with ops := fun p => if p = 7 then some { demo_op with generation := 0 }
                                         else none }
    [] demo_receive { demo_op with generation := 0 } demo_sock
    (by decide) rfl rfl (by decide)

/-- C5, evaluated on the code: with the infinite timeout `-1`, a first batch
that produces no reportable event makes `epoll_wait` return 0 after that single
dequeue call instead of dequeuing again. -/
theorem C5_infinite_wait_returns_zero :
    (epoll_wait abi demo_inflight 4 (-1) demo_idle_env).map (fun r => (r.ret, r.calls))
      = .ok (0, [⟨4, INFINITE⟩]) := by
  rfl

theorem completion_appends (K : Consts) (st st' : State) (ev ev' : List epoll_event)
    (e : OVERLAPPED_ENTRY) (h : epoll_wait_completion K st ev e = .ok (st', ev')) :
    ev' = ev ∨ ∃ r, ev' = ev ++ [r] := by
  unfold epoll_wait_completion at h
  dsimp only at h
  repeat' split at h
  all_goals first
    | (cases h; done)
    | (simp only [Except.ok.injEq, Prod.mk.injEq] at h
       obtain ⟨_, rfl⟩ := h
       first
         | exact Or.inl rfl
         | exact Or.inr ⟨_, rfl⟩)

theorem completions_append (K : Consts) (a b : List OVERLAPPED_ENTRY) :
    ∀ (st : State) (ev : List epoll_event),
      epoll_wait_completions K st ev (a ++ b) =
        match epoll_wait_completions K st ev a with
        | .error err => .error err
        | .ok (s, v) => epoll_wait_completions K s v b := by
  induction a with
  | nil =>
    intro st ev
    rfl
  | cons e rest ih =>
    intro st ev
    simp only [List.cons_append, epoll_wait_completions]
    cases h : epoll_wait_completion K st ev e with
    | error err => rfl
    | ok p =>
      obtain ⟨s, v⟩ := p
      exact ih s v

theorem completions_bound (K : Consts) (es : List OVERLAPPED_ENTRY) :
    ∀ (st st' : State) (ev ev' : List epoll_event),
      epoll_wait_completions K st ev es = .ok (st', ev') →
      ev <+: ev' ∧ ev'.length ≤ ev.length + es.length := by
  induction es with
  | nil =>
    intro st st' ev ev' h
    simp only [epoll_wait_completions, Except.ok.injEq, Prod.mk.injEq] at h
    obtain ⟨_, rfl⟩ := h
    exact ⟨List.prefix_refl _, by simp⟩
  | cons e rest ih =>
    intro st st' ev ev' h
    simp only [epoll_wait_completions] at h
    cases hstep : epoll_wait_completion K st ev e with
    | error err =>
      rw [hstep] at h
      cases h
    | ok p =>
      obtain ⟨s, v⟩ := p
      rw [hstep] at h
      obtain ⟨hpre, hlen⟩ := ih s st' v ev' h
      rcases completion_appends K st s ev v e hstep with rfl | ⟨r, rfl⟩
      · refine ⟨hpre, ?_⟩
        simp only [List.length_cons, List.length_nil] at hlen ⊢
        omega
      · refine ⟨(List.prefix_append _ [r]).trans hpre, ?_⟩
        simp only [List.length_append, List.length_singleton, List.length_cons,
          List.length_nil] at hlen ⊢
        omega

theorem wait_max_entries_eq (maxevents : Int) (h : 1 ≤ maxevents) :
    (wait_max_entries maxevents : Int) = min maxevents 64 := by
  unfold wait_max_entries W32
  split
  · have h1 : maxevents % ((2 ^ 32 : Nat) : Int) = maxevents := by
      apply Int.emod_eq_of_lt <;> norm_num <;> omega
    rw [h1, Int.toNat_of_nonneg (by omega)]
    omega
  · norm_num
    omega

theorem dequeue_spec (K : Consts) (maxevents timeout : Int) (due : Nat)
    (gqcs : List gqcs_env) :
    ∀ (st : State) (t : Nat) (calls : List gqcs_call) (r : wait_result),
      epoll_wait_dequeue K maxevents timeout due st t calls gqcs = .ok r →
      (r.ret = -1 ∨ r.ret = (r.events.length : Int))
      ∧ r.events.length ≤ wait_max_entries maxevents
      ∧ (∀ c ∈ r.calls, c ∈ calls ∨ c.max_entries = wait_max_entries maxevents)
      ∧ (0 < r.events.length → ∃ g ∈ gqcs, ∃ st1,
          epoll_wait_completions K st1 [] g.entries = .ok (r.st, r.events)) := by
  induction gqcs with
  | nil =>
    intro st t calls r h
    simp [epoll_wait_dequeue] at h
  | cons env rest ih =>
    intro st t calls r h
    have hcalls : ∀ c ∈ calls ++ [(⟨wait_max_entries maxevents, t⟩ : gqcs_call)],
        c ∈ calls ∨ c.max_entries = wait_max_entries maxevents := by
      intro c hc
      rcases List.mem_append.1 hc with hc | hc
      · exact Or.inl hc
      · right
        rw [List.mem_singleton.1 hc]
    unfold epoll_wait_dequeue at h
    dsimp only at h
    split at h
    · split at h
      · cases h
        exact ⟨Or.inr rfl, by simp, hcalls, by simp⟩
      · cases h
        exact ⟨Or.inl rfl, by simp, hcalls, by simp⟩
    · split at h
      · cases h
      · rename_i hlen
        split at h
        · cases h
        · rename_i st2 events hloop
          have hb := completions_bound K env.entries _ st2 [] events hloop
          split at h
          · cases h
            refine ⟨Or.inr rfl, ?_, hcalls, ?_⟩
            · have := hb.2
              simp only [List.length_nil, zero_add] at this
              show events.length ≤ wait_max_entries maxevents
              omega
            · intro _
              exact ⟨env, List.mem_cons_self _ _, _, hloop⟩
          · split at h
            · obtain ⟨h1, h2, h3, h4⟩ := ih _ _ _ r h
              refine ⟨h1, h2, ?_, ?_⟩
              · intro c hc
                rcases h3 c hc with hc' | hc'
                · exact hcalls c hc'
                · exact Or.inr hc'
              · intro hpos
                obtain ⟨g, hg, st1, hrun⟩ := h4 hpos
                exact ⟨g, List.mem_cons_of_mem _ hg, st1, hrun⟩
            · rename_i hzero _
              cases h
              refine ⟨Or.inr ?_, ?_, hcalls, ?_⟩
              · simp only [not_lt, Nat.le_zero] at hzero
                simp [hzero]
              · show events.length ≤ wait_max_entries maxevents
                omega
              · intro hpos
                exact absurd hpos hzero

/-- C6: an `epoll_wait` call with capacity `maxevents >= 1` that returns
without failure returns a count between 0 and `min(maxevents, 64)`, asks for
exactly `min(maxevents, 64)` packets in each dequeue call, and has written
exactly the first `count` slots of the output buffer; these are the records of
one dequeued batch in dequeue order: the records of any first part of the batch
are a leading part of the output. -/
theorem C6_wait_output_bounds (K : Consts) (st : State) (maxevents timeout : Int)
    (env : wait_env) (r : wait_result)
    (hmax : 1 ≤ maxevents)
    (hrun : epoll_wait K st maxevents timeout env = .ok r)
    (hok : r.ret ≠ -1) :
    0 ≤ r.ret ∧ r.ret ≤ min maxevents 64
    ∧ (∀ c ∈ r.calls, (c.max_entries : Int) = min maxevents 64)
    ∧ (r.events.length : Int) = r.ret
    ∧ (0 < r.ret → ∃ g ∈ env.gqcs, ∃ st1,
        epoll_wait_completions K st1 [] g.entries = .ok (r.st, r.events)
        ∧ ∀ a b, g.entries = a ++ b → ∃ st2 ev2,
            epoll_wait_completions K st1 [] a = .ok (st2, ev2)
            ∧ ev2 <+: r.events ∧ ev2.length ≤ a.length) := by
  unfold epoll_wait at hrun
  split at hrun
  · cases hrun
  · obtain ⟨h1, h2, h3, h4⟩ := dequeue_spec K maxevents timeout _ env.gqcs _ _ _ r hrun
    have hm := wait_max_entries_eq maxevents hmax
    have hret : r.ret = (r.events.length : Int) := by
      rcases h1 with h1 | h1
      · exact absurd h1 hok
      · exact h1
    refine ⟨by omega, by omega, ?_, hret.symm, ?_⟩
    · intro c hc
      rcases h3 c hc with hc' | hc'
      · simp at hc'
      · rw [hc', hm]
    · intro hpos
      obtain ⟨g, hg, st1, hloop⟩ := h4 (by omega)
      refine ⟨g, hg, st1, hloop, ?_⟩
      intro a b hab
      rw [hab, completions_append] at hloop
      cases ha : epoll_wait_completions K st1 [] a with
      | error err =>
        rw [ha] at hloop
        cases hloop
      | ok p =>
        obtain ⟨st2, ev2⟩ := p
        rw [ha] at hloop
        refine ⟨st2, ev2, rfl, (completions_bound K b st2 r.st ev2 r.events hloop).1, ?_⟩
        have := (completions_bound K a st1 st2 [] ev2 ha).2
        simpa using this

/-- Witness of C6: a wait with capacity 4 whose first batch holds one packet
that reports `in` returns 1. -/
theorem C6_wait_output_bounds_witness :
    0 ≤ demo_report_result.ret ∧ demo_report_result.ret ≤ min 4 64
    ∧ (∀ c ∈ demo_report_result.calls, (c.max_entries : Int) = min 4 64)
    ∧ (demo_report_result.events.length : Int) = demo_report_result.ret
    ∧ (0 < demo_report_result.ret → ∃ g ∈ demo_report_env.gqcs, ∃ st1,
        epoll_wait_completions abi st1 [] g.entries
          = .ok (demo_report_result.st, demo_report_result.events)
        ∧ ∀ a b, g.entries = a ++ b → ∃ st2 ev2,
            epoll_wait_completions abi st1 [] a = .ok (st2, ev2)
            ∧ ev2 <+: demo_report_result.events ∧ ev2.length ≤ a.length) :=
  C6_wait_output_bounds abi demo_inflight 4 1000 demo_report_env demo_report_result
    (by decide) rfl (by decide)

theorem get_peer_socket_spec (K : Consts) (st : State) (ProviderId : Nat)
    (env : peer_socket_env) :
    ((epoll__get_peer_socket K st ProviderId env).2.1 = none
      ∨ ((epoll__get_peer_socket K st ProviderId env).2.1 = some .ERROR_NOT_SUPPORTED
        ∧ (epoll__get_peer_socket K st ProviderId env).2.2 = st))
    ∧ (epoll__get_peer_socket K st ProviderId env).2.2.socks = st.socks
    ∧ (epoll__get_peer_socket K st ProviderId env).2.2.ops = st.ops
    ∧ (epoll__get_peer_socket K st ProviderId env).2.2.kernel = st.kernel
    ∧ (epoll__get_peer_socket K st ProviderId env).2.2.port.sock_data_tree
        = st.port.sock_data_tree
    ∧ (epoll__get_peer_socket K st ProviderId env).2.2.port.attn = st.port.attn
    ∧ (epoll__get_peer_socket K st ProviderId env).2.2.port.pending_ops_count
        = st.port.pending_ops_count
    ∧ (epoll__get_peer_socket K st ProviderId env).2.2.port.iocp = st.port.iocp := by
  unfold epoll__get_peer_socket
  dsimp only
  split
  · simp
  · split <;> simp [State.set_port]

theorem free_sock_eq (st st' : State) (p : Ptr) (h : st.free_sock p = .ok st') :
    st' = { st with socks := Function.update st.socks p none } := by
  unfold State.free_sock at h
  split at h
  · simp only [Except.ok.injEq] at h
    exact h.symm
  · cases h

theorem land_mod_W32 (x b : Nat) (hb : b < W32) : x % W32 &&& b = x &&& b := by
  unfold W32 at hb ⊢
  rw [← Nat.and_pow_two_sub_one_eq_mod, Nat.and_assoc, Nat.and_comm (2 ^ 32 - 1) b,
    Nat.and_pow_two_sub_one_of_lt_two_pow hb]

theorem mandatory_of_store (K : Consts) (m : Nat)
    (hE : K.EPOLLERR ≠ 0) (hE32 : K.EPOLLERR < W32)
    (hH : K.EPOLLHUP ≠ 0) (hH32 : K.EPOLLHUP < W32) :
    mandatory_bits K ((m ||| K.EPOLLERR ||| K.EPOLLHUP) % W32) := by
  unfold mandatory_bits
  rw [land_mod_W32 _ _ hE32, land_mod_W32 _ _ hH32]
  constructor
  · rw [Nat.and_distrib_right, Nat.and_distrib_right, Nat.and_self]
    intro h
    exact hE ((lor_eq_zero_iff _ _).1 ((lor_eq_zero_iff _ _).1 h).1).2
  · rw [Nat.and_distrib_right, Nat.and_self]
    intro h
    exact hH ((lor_eq_zero_iff _ _).1 h).2

theorem mandatory_of_tombstone (K : Consts)
    (hE : K.EPOLLERR ≠ 0) (hE32 : K.EPOLLERR < W32)
    (hH : K.EPOLLHUP ≠ 0) (hH32 : K.EPOLLHUP < W32) :
    mandatory_bits K TOMBSTONE := by
  unfold mandatory_bits TOMBSTONE
  unfold W32 at *
  rw [Nat.and_comm, Nat.and_pow_two_sub_one_of_lt_two_pow hE32,
    Nat.and_comm, Nat.and_pow_two_sub_one_of_lt_two_pow hH32]
  exact ⟨hE, hH⟩

theorem hm_of_socks (K : Consts) (st st' : State) (h : st'.socks = st.socks)
    (hI : heap_mandatory K st) : heap_mandatory K st' := by
  intro p r hp
  rw [h] at hp
  exact hI p r hp

theorem hm_set_port (K : Consts) (st : State) (f : epoll_port_data_s → epoll_port_data_s)
    (hI : heap_mandatory K st) : heap_mandatory K (st.set_port f) :=
  hm_of_socks K st _ rfl hI

theorem hm_set_op (K : Consts) (st : State) (p : Ptr) (o : epoll_op_s)
    (hI : heap_mandatory K st) : heap_mandatory K (st.set_op p o) :=
  hm_of_socks K st _ rfl hI

theorem hm_set_sock (K : Consts) (st : State) (p : Ptr) (r : epoll_sock_data_s)
    (hr : mandatory_bits K r.events) (hI : heap_mandatory K st) :
    heap_mandatory K (st.set_sock p r) := by
  intro q r' hq
  by_cases hqp : q = p
  · subst hqp
    simp only [State.set_sock, Function.update_same, Option.some.injEq] at hq
    rw [← hq]
    exact hr
  · simp only [State.set_sock, Function.update_noteq hqp] at hq
    exact hI q r' hq

theorem hm_sock_at (K : Consts) (st : State) (p : Ptr) (r : epoll_sock_data_s)
    (h : st.sock_at p = .ok r) (hI : heap_mandatory K st) : mandatory_bits K r.events :=
  hI p r ((sock_at_ok_iff st p r).1 h).2

theorem hm_modify (K : Consts) (st st' : State) (p : Ptr)
    (f : epoll_sock_data_s → epoll_sock_data_s)
    (h : st.modify_sock p f = .ok st')
    (hf : ∀ r, mandatory_bits K r.events → mandatory_bits K (f r).events)
    (hI : heap_mandatory K st) : heap_mandatory K st' := by
  unfold State.modify_sock at h
  split at h
  · rename_i r hr
    cases h
    exact hm_set_sock K st p (f r) (hf r (hm_sock_at K st p r hr hI)) hI
  · cases h

theorem hm_free_sock (K : Consts) (st st' : State) (p : Ptr)
    (h : st.free_sock p = .ok st') (hI : heap_mandatory K st) : heap_mandatory K st' := by
  rw [free_sock_eq st st' p h]
  intro q r hq
  by_cases hqp : q = p
  · subst hqp
    simp at hq
  · simp only [Function.update_noteq hqp] at hq
    exact hI q r hq

theorem hm_free_op (K : Consts) (st st' : State) (p : Ptr)
    (h : st.free_op p = .ok st') (hI : heap_mandatory K st) : heap_mandatory K st' := by
  unfold State.free_op at h
  split at h
  · cases h
    exact hI
  · split at h
    · cases h
      exact hm_of_socks K st _ rfl hI
    · cases h

theorem hm_set_port_iff (K : Consts) (st : State) (f : epoll_port_data_s → epoll_port_data_s) :
    heap_mandatory K (st.set_port f) ↔ heap_mandatory K st := Iff.rfl

theorem hm_set_op_iff (K : Consts) (st : State) (p : Ptr) (o : epoll_op_s) :
    heap_mandatory K (st.set_op p o) ↔ heap_mandatory K st := Iff.rfl

theorem hm_set_kernel_iff (K : Consts) (st : State) (k : List Ptr) :
    heap_mandatory K (st.set_kernel k) ↔ heap_mandatory K st := Iff.rfl

theorem hm_set_sock_iff (K : Consts) (st : State) (p : Ptr) (r : epoll_sock_data_s) :
    heap_mandatory K (st.set_sock p r) ↔
      (mandatory_bits K r.events
        ∧ ∀ q r', q ≠ p → st.socks q = some r' → mandatory_bits K r'.events) := by
  constructor
  · intro h
    refine ⟨h p r (by simp [State.set_sock]), ?_⟩
    intro q r' hq hs
    exact h q r' (by simp [State.set_sock, Function.update_noteq hq, hs])
  · rintro ⟨h1, h2⟩ q r' hq
    by_cases hqp : q = p
    · subst hqp
      simp only [State.set_sock, Function.update_same, Option.some.injEq] at hq
      rw [← hq]
      exact h1
    · simp only [State.set_sock, Function.update_noteq hqp] at hq
      exact h2 q r' hqp hq

theorem hm_rest (K : Consts) (st : State) (p : Ptr) (hI : heap_mandatory K st) :
    ∀ q r', q ≠ p → st.socks q = some r' → mandatory_bits K r'.events :=
  fun q r' _ h => hI q r' h

theorem hm_ite (K : Consts) (c : Prop) [Decidable c] (a : Except Fault State)
    (st st' : State) (h : (if c then a else .ok st) = .ok st')
    (ha : a = .ok st' → heap_mandatory K st') (hI : heap_mandatory K st) :
    heap_mandatory K st' := by
  split at h
  · exact ha h
  · cases h
    exact hI

theorem hm_submit (K : Consts) (st st' : State) (p : Ptr) (env : afd_poll_env) (ret : Int)
    (h : epoll__submit_poll_op K st p env = .ok (ret, st'))
    (hI : heap_mandatory K st) : heap_mandatory K st' := by
  unfold epoll__submit_poll_op at h
  dsimp only at h
  repeat' split at h
  all_goals first
    | (cases h; done)
    | (simp only [Except.ok.injEq, Prod.mk.injEq] at h
       obtain ⟨_, rfl⟩ := h
       repeat' (first
         | assumption
         | rw [hm_set_port_iff]
         | rw [hm_set_op_iff]
         | rw [hm_set_kernel_iff]
         | (rw [hm_set_sock_iff]; refine ⟨?_, hm_rest K _ _ ?_⟩)
         | refine hm_modify K _ _ _ _ (by assumption) (by intro _ hr; first | exact hr) ?_
         | refine hm_free_sock K _ _ _ (by assumption) ?_
         | refine hm_free_op K _ _ _ (by assumption) ?_
         | refine hm_sock_at K _ _ _ (by assumption) ?_
         | dsimp only [RB_REMOVE]))

theorem hm_attn_push_add (K : Consts) (st st' : State) (p : Ptr)
    (h : attn_push_add st p = .ok st') (hI : heap_mandatory K st) :
    heap_mandatory K st' := by
  unfold attn_push_add at h
  repeat' split at h
  all_goals first
    | (cases h; done)
    | (simp only [Except.ok.injEq] at h
       subst h
       repeat' (first
         | assumption
         | rw [hm_set_port_iff]
         | rw [hm_set_op_iff]
         | rw [hm_set_kernel_iff]
         | (rw [hm_set_sock_iff]; refine ⟨?_, hm_rest K _ _ ?_⟩)
         | refine hm_modify K _ _ _ _ (by assumption) (by intro _ hr; first | exact hr) ?_
         | refine hm_free_sock K _ _ _ (by assumption) ?_
         | refine hm_free_op K _ _ _ (by assumption) ?_
         | refine hm_sock_at K _ _ _ (by assumption) ?_
         | dsimp only [RB_REMOVE]))

theorem hm_attn_push_mod (K : Consts) (st st' : State) (p : Ptr)
    (h : attn_push_mod st p = .ok st') (hI : heap_mandatory K st) :
    heap_mandatory K st' := by
  unfold attn_push_mod at h
  dsimp only at h
  split at h
  · cases h
  · split at h
    · cases h
    · refine hm_modify K _ _ _ _ h (fun _ hr => hr) ?_
      repeat' (first
                | assumption
                | rw [hm_set_port_iff]
                | rw [hm_set_op_iff]
                | rw [hm_set_kernel_iff]
                | (rw [hm_set_sock_iff]; refine ⟨?_, hm_rest K _ _ ?_⟩)
                | refine hm_modify K _ _ _ _ (by assumption) (by intro _ hr; first | exact hr) ?_
                | refine hm_free_sock K _ _ _ (by assumption) ?_
                | refine hm_free_op K _ _ _ (by assumption) ?_
                | refine hm_ite K _ _ _ _ (by assumption) (fun _ => ?_) ?_
                | refine hm_sock_at K _ _ _ (by assumption) ?_
                | dsimp only [RB_REMOVE])

theorem hm_attn_unlink (K : Consts) (st st' : State) (p : Ptr)
    (h : attn_unlink st p = .ok st') (hI : heap_mandatory K st) :
    heap_mandatory K st' := by
  unfold attn_unlink at h
  dsimp only at h
  split at h
  · cases h
  · split at h
    · split at h
      · cases h
      · split at h
        · cases h
        · split at h
          · cases h
          · split at h
            · cases h
            · refine hm_modify K _ _ _ _ h (fun _ hr => hr) ?_
              split
              · repeat' (first
                | assumption
                | rw [hm_set_port_iff]
                | rw [hm_set_op_iff]
                | rw [hm_set_kernel_iff]
                | (rw [hm_set_sock_iff]; refine ⟨?_, hm_rest K _ _ ?_⟩)
                | refine hm_modify K _ _ _ _ (by assumption) (by intro _ hr; first | exact hr) ?_
                | refine hm_free_sock K _ _ _ (by assumption) ?_
                | refine hm_free_op K _ _ _ (by assumption) ?_
                | refine hm_ite K _ _ _ _ (by assumption) (fun _ => ?_) ?_
                | refine hm_sock_at K _ _ _ (by assumption) ?_
                | dsimp only [RB_REMOVE])
              · repeat' (first
                | assumption
                | rw [hm_set_port_iff]
                | rw [hm_set_op_iff]
                | rw [hm_set_kernel_iff]
                | (rw [hm_set_sock_iff]; refine ⟨?_, hm_rest K _ _ ?_⟩)
                | refine hm_modify K _ _ _ _ (by assumption) (by intro _ hr; first | exact hr) ?_
                | refine hm_free_sock K _ _ _ (by assumption) ?_
                | refine hm_free_op K _ _ _ (by assumption) ?_
                | refine hm_ite K _ _ _ _ (by assumption) (fun _ => ?_) ?_
                | refine hm_sock_at K _ _ _ (by assumption) ?_
                | dsimp only [RB_REMOVE])
    · cases h
      exact hI

theorem hm_rearm (K : Consts) (st st' : State) (p : Ptr)
    (h : epoll_wait_rearm st p = .ok st') (hI : heap_mandatory K st) :
    heap_mandatory K st' := by
  unfold epoll_wait_rearm at h
  repeat' split at h
  all_goals first
    | (cases h; done)
    | (simp only [Except.ok.injEq] at h
       subst h
       repeat' (first
         | assumption
         | rw [hm_set_port_iff]
         | rw [hm_set_op_iff]
         | rw [hm_set_kernel_iff]
         | (rw [hm_set_sock_iff]; refine ⟨?_, hm_rest K _ _ ?_⟩)
         | refine hm_modify K _ _ _ _ (by assumption) (by intro _ hr; first | exact hr) ?_
         | refine hm_free_sock K _ _ _ (by assumption) ?_
         | refine hm_free_op K _ _ _ (by assumption) ?_
         | refine hm_sock_at K _ _ _ (by assumption) ?_
         | dsimp only [RB_REMOVE]))

theorem hm_RB_INSERT (K : Consts) (st st' : State) (p found : Ptr)
    (h : RB_INSERT st p = .ok (found, st')) (hI : heap_mandatory K st) :
    heap_mandatory K st' := by
  unfold RB_INSERT at h
  repeat' split at h
  all_goals first
    | (cases h; done)
    | (simp only [Except.ok.injEq, Prod.mk.injEq] at h
       obtain ⟨_, rfl⟩ := h
       first
         | exact hI
         | exact (hm_set_port_iff K _ _).2 hI)

theorem hm_mod_spare (K : Consts) (st st' : State) (p : Ptr) (sd : epoll_sock_data_s)
    (env : ctl_env) (h : epoll_ctl_mod_spare st p sd env = .ok (some st'))
    (hI : heap_mandatory K st) : heap_mandatory K st' := by
  unfold epoll_ctl_mod_spare at h
  repeat' split at h
  all_goals first
    | (cases h; done)
    | (simp only [Except.ok.injEq, Option.some.injEq] at h
       subst h
       repeat' (first
         | assumption
         | rw [hm_set_port_iff]
         | rw [hm_set_op_iff]
         | rw [hm_set_kernel_iff]
         | (rw [hm_set_sock_iff]; refine ⟨?_, hm_rest K _ _ ?_⟩)
         | refine hm_modify K _ _ _ _ (by assumption) (by intro _ hr; first | exact hr) ?_
         | refine hm_free_sock K _ _ _ (by assumption) ?_
         | refine hm_free_op K _ _ _ (by assumption) ?_
         | refine hm_sock_at K _ _ _ (by assumption) ?_
         | dsimp only [RB_REMOVE]))

theorem hm_ctl_mod (K : Consts) (hstore : ∀ m, mandatory_bits K ((m ||| K.EPOLLERR ||| K.EPOLLHUP) % W32))
    (htomb : mandatory_bits K TOMBSTONE) (st : State) (sock : Nat) (event : epoll_event)
    (env : ctl_env) (r : ctl_result) (h : epoll_ctl_mod K st sock event env = .ok r)
    (hI : heap_mandatory K st) : heap_mandatory K r.st := by
  unfold epoll_ctl_mod at h
  dsimp only at h
  repeat' split at h
  all_goals first
    | (cases h; done)
    | (simp only [Except.ok.injEq] at h
       subst h
       repeat' (first
         | assumption
         | exact hstore _
         | rw [hm_set_port_iff]
         | rw [hm_set_op_iff]
         | rw [hm_set_kernel_iff]
         | (rw [hm_set_sock_iff]; refine ⟨?_, hm_rest K _ _ ?_⟩)
         | refine hm_modify K _ _ _ _ (by assumption) (by intro _ hr; first | exact hr | exact hstore _) ?_
         | refine hm_free_sock K _ _ _ (by assumption) ?_
         | refine hm_free_op K _ _ _ (by assumption) ?_
         | refine hm_attn_push_mod K _ _ _ (by assumption) ?_
         | refine hm_mod_spare K _ _ _ _ _ (by assumption) ?_
         | refine hm_sock_at K _ _ _ (by assumption) ?_
         | dsimp only [RB_REMOVE]))

theorem hm_ctl_del (K : Consts) (hstore : ∀ m, mandatory_bits K ((m ||| K.EPOLLERR ||| K.EPOLLHUP) % W32))
    (htomb : mandatory_bits K TOMBSTONE) (st : State) (sock : Nat)
    (r : ctl_result) (h : epoll_ctl_del st sock = .ok r)
    (hI : heap_mandatory K st) : heap_mandatory K r.st := by
  unfold epoll_ctl_del at h
  dsimp only at h
  repeat' split at h
  all_goals first
    | (cases h; done)
    | (simp only [Except.ok.injEq] at h
       subst h
       repeat' (first
         | assumption
         | exact htomb
         | rw [hm_set_port_iff]
         | rw [hm_set_op_iff]
         | rw [hm_set_kernel_iff]
         | (rw [hm_set_sock_iff]; refine ⟨?_, hm_rest K _ _ ?_⟩)
         | refine hm_modify K _ _ _ _ (by assumption) (by intro _ hr; first | exact hr | exact htomb) ?_
         | refine hm_free_sock K _ _ _ (by assumption) ?_
         | refine hm_free_op K _ _ _ (by assumption) ?_
         | refine hm_attn_unlink K _ _ _ (by assumption) ?_
         | refine hm_sock_at K _ _ _ (by assumption) ?_
         | dsimp only [RB_REMOVE]))

theorem hm_ctl_add (K : Consts) (hstore : ∀ m, mandatory_bits K ((m ||| K.EPOLLERR ||| K.EPOLLHUP) % W32))
    (htomb : mandatory_bits K TOMBSTONE) (st : State) (sock : Nat) (event : epoll_event)
    (env : ctl_env) (r : ctl_result) (h : epoll_ctl_add K st sock event env = .ok r)
    (hI : heap_mandatory K st) : heap_mandatory K r.st := by
  have hg := get_peer_socket_spec K st env.ProviderId env.peer
  unfold epoll_ctl_add at h
  generalize epoll__get_peer_socket K st env.ProviderId env.peer = g at h hg
  obtain ⟨peer_sock, err, st1⟩ := g
  have hI1 : heap_mandatory K st1 := hm_of_socks K st st1 hg.2.1 hI
  have hrest : ∀ q r', q ≠ env.malloc_sock_data → st1.socks q = some r' →
      mandatory_bits K r'.events := hm_rest K st1 _ hI1
  have hI4 : ∀ r', mandatory_bits K r'.events →
      heap_mandatory K (((st1.set_sock env.malloc_sock_data epoll_sock_data_s.uninit).set_op
        env.malloc_op epoll_op_s.uninit).set_sock env.malloc_sock_data r') := by
    intro r' hr'
    rw [hm_set_sock_iff]
    refine ⟨hr', ?_⟩
    intro q r'' hq hs
    simp only [State.set_op, State.set_sock, Function.update_noteq hq] at hs
    exact hrest q r'' hq hs
  dsimp only at h
  repeat' split at h
  all_goals first
    | (cases h; done)
    | (simp only [Except.ok.injEq] at h
       subst h
       first
         | exact hI
         | exact hI1
         | (rename_i hfree
            rw [free_sock_eq _ _ _ hfree]
            intro q r' hq
            by_cases hqp : q = env.malloc_sock_data
            · subst hqp
              simp at hq
            · simp only [State.set_sock, Function.update_noteq hqp] at hq
              exact hrest q r' hqp hq)
         | (repeat' (first
              | exact hI4 _ (hstore _)
              | refine hm_free_sock K _ _ _ (by assumption) ?_
              | refine hm_free_op K _ _ _ (by assumption) ?_
              | refine hm_attn_push_add K _ _ _ (by assumption) ?_
              | refine hm_RB_INSERT K _ _ _ _ (by assumption) ?_)))

theorem hm_ctl (K : Consts) (hstore : ∀ m, mandatory_bits K ((m ||| K.EPOLLERR ||| K.EPOLLHUP) % W32))
    (htomb : mandatory_bits K TOMBSTONE) (st : State) (op : Int) (sock : Nat) (event : epoll_event)
    (env : ctl_env) (r : ctl_result) (h : epoll_ctl K st op sock event env = .ok r)
    (hI : heap_mandatory K st) : heap_mandatory K r.st := by
  unfold epoll_ctl at h
  split at h
  · exact hm_ctl_add K hstore htomb st sock event env r h hI
  · split at h
    · exact hm_ctl_mod K hstore htomb st sock event env r h hI
    · split at h
      · exact hm_ctl_del K hstore htomb st sock r h hI
      · cases h
        exact hI

theorem hm_submit_map (K : Consts) (st st' : State) (p : Ptr) (env : afd_poll_env)
    (h : (epoll__submit_poll_op K st p env).map Prod.snd = .ok st')
    (hI : heap_mandatory K st) : heap_mandatory K st' := by
  cases hs : epoll__submit_poll_op K st p env with
  | error e =>
    rw [hs] at h
    cases h
  | ok a =>
    obtain ⟨ret, st2⟩ := a
    rw [hs] at h
    cases h
    exact hm_submit K st st2 p env ret hs hI

theorem hm_drain (K : Consts) (envs : List afd_poll_env) :
    ∀ (st st' : State), epoll_wait_drain K st envs = .ok st' →
      heap_mandatory K st → heap_mandatory K st' := by
  induction envs with
  | nil =>
    intro st st' h hI
    unfold epoll_wait_drain at h
    split at h
    · cases h
      exact hI
    · cases h
  | cons env rest ih =>
    intro st st' h hI
    unfold epoll_wait_drain at h
    dsimp only at h
    split at h
    · cases h
      exact hI
    · split at h
      · cases h
      · split at h
        · cases h
        · split at h
          · cases h
          · rename_i st1 hsub
            have hI1 : heap_mandatory K st1 :=
              hm_ite K _ _ _ _ hsub (fun h' => hm_submit_map K _ _ _ _ h' hI) hI
            split at h
            · cases h
            · split at h
              · cases h
              · rename_i st3 hmod
                exact ih st3 st' h
                  (hm_modify K _ _ _ _ hmod (fun _ hr => hr) ((hm_set_port_iff K _ _).2 hI1))

theorem hm_completion (K : Consts) (st st' : State) (ev ev' : List epoll_event)
    (e : OVERLAPPED_ENTRY) (h : epoll_wait_completion K st ev e = .ok (st', ev'))
    (hI : heap_mandatory K st) : heap_mandatory K st' := by
  unfold epoll_wait_completion at h
  dsimp only at h
  repeat' split at h
  all_goals first
    | (cases h; done)
    | (simp only [Except.ok.injEq, Prod.mk.injEq] at h
       obtain ⟨rfl, _⟩ := h
       repeat' (first
         | assumption
         | rw [hm_set_port_iff]
         | rw [hm_set_op_iff]
         | rw [hm_set_kernel_iff]
         | (rw [hm_set_sock_iff]; refine ⟨?_, hm_rest K _ _ ?_⟩)
         | refine hm_modify K _ _ _ _ (by assumption) (by intro _ hr; first | exact hr) ?_
         | refine hm_free_sock K _ _ _ (by assumption) ?_
         | refine hm_free_op K _ _ _ (by assumption) ?_
         | refine hm_rearm K _ _ _ (by assumption) ?_
         | refine hm_ite K _ _ _ _ (by assumption) (fun _ => ?_) ?_
         | refine hm_sock_at K _ _ _ (by assumption) ?_
         | dsimp only [RB_REMOVE]))

theorem hm_completions (K : Consts) (es : List OVERLAPPED_ENTRY) :
    ∀ (st st' : State) (ev ev' : List epoll_event),
      epoll_wait_completions K st ev es = .ok (st', ev') →
      heap_mandatory K st → heap_mandatory K st' := by
  induction es with
  | nil =>
    intro st st' ev ev' h hI
    simp only [epoll_wait_completions, Except.ok.injEq, Prod.mk.injEq] at h
    rw [← h.1]
    exact hI
  | cons e rest ih =>
    intro st st' ev ev' h hI
    simp only [epoll_wait_completions] at h
    split at h
    · cases h
    · rename_i st1 ev1 hstep
      exact ih st1 st' ev1 ev' h (hm_completion K st st1 ev ev1 e hstep hI)

theorem hm_dequeue (K : Consts) (maxevents timeout : Int) (due : Nat)
    (gqcs : List gqcs_env) :
    ∀ (st : State) (t : Nat) (calls : List gqcs_call) (r : wait_result),
      epoll_wait_dequeue K maxevents timeout due st t calls gqcs = .ok r →
      heap_mandatory K st → heap_mandatory K r.st := by
  induction gqcs with
  | nil =>
    intro st t calls r h hI
    simp [epoll_wait_dequeue] at h
  | cons env rest ih =>
    intro st t calls r h hI
    unfold epoll_wait_dequeue at h
    dsimp only at h
    split at h
    · split at h
      · cases h
        exact hI
      · cases h
        exact hI
    · split at h
      · cases h
      · split at h
        · cases h
        · rename_i st2 events hloop
          have hI2 : heap_mandatory K st2 :=
            hm_completions K _ _ _ _ _ hloop ((hm_set_port_iff K _ _).2 hI)
          split at h
          · cases h
            exact hI2
          · split at h
            · exact ih _ _ _ r h hI2
            · cases h
              exact hI2

theorem hm_wait (K : Consts) (st : State) (maxevents timeout : Int) (env : wait_env)
    (r : wait_result) (h : epoll_wait K st maxevents timeout env = .ok r)
    (hI : heap_mandatory K st) : heap_mandatory K r.st := by
  unfold epoll_wait at h
  split at h
  · cases h
  · rename_i st1 hdrain
    exact hm_dequeue K _ _ _ _ _ _ _ r h (hm_drain K _ _ _ hdrain hI)

theorem hm_reachable (K : Consts) (hstore : ∀ m, mandatory_bits K ((m ||| K.EPOLLERR ||| K.EPOLLHUP) % W32))
    (htomb : mandatory_bits K TOMBSTONE) (st : State) (h : Reachable K st) :
    heap_mandatory K st := by
  induction h with
  | create malloc_ok iocp st hc =>
    unfold epoll_create at hc
    split at hc
    · cases hc
    · split at hc
      · cases hc
      · cases hc
        intro p r hp
        cases hp
  | ctl st op sock event env r _ hrun ih =>
    exact hm_ctl K hstore htomb st op sock event env r hrun ih
  | wait st maxevents timeout env r _ hrun ih =>
    exact hm_wait K st maxevents timeout env r hrun ih

/-! ## The assertions on the mandatory bits -/

theorem benign_sock_at (st : State) (p : Ptr) (f : Fault) (h : st.sock_at p = .error f) :
    benign f := by
  unfold State.sock_at at h
  repeat' split at h
  all_goals first
    | (cases h; done)
    | (simp only [Except.error.injEq] at h
       subst h
       unfold benign
       constructor <;> decide)

theorem benign_op_at (st : State) (p : Ptr) (f : Fault) (h : st.op_at p = .error f) :
    benign f := by
  unfold State.op_at at h
  repeat' split at h
  all_goals first
    | (cases h; done)
    | (simp only [Except.error.injEq] at h
       subst h
       unfold benign
       constructor <;> decide)

theorem benign_modify (st : State) (p : Ptr) (g : epoll_sock_data_s → epoll_sock_data_s)
    (f : Fault) (h : st.modify_sock p g = .error f) : benign f := by
  unfold State.modify_sock at h
  split at h
  · cases h
  · rename_i e he
    cases h
    exact benign_sock_at st p _ he

theorem benign_free_sock (st : State) (p : Ptr) (f : Fault)
    (h : st.free_sock p = .error f) : benign f := by
  unfold State.free_sock at h
  split at h
  · cases h
  · rename_i e he
    cases h
    exact benign_sock_at st p _ he

theorem benign_free_op (st : State) (p : Ptr) (f : Fault)
    (h : st.free_op p = .error f) : benign f := by
  unfold State.free_op at h
  split at h
  · cases h
  · split at h
    · cases h
    · rename_i e he
      cases h
      exact benign_op_at st p _ he

theorem benign_rearm (st : State) (p : Ptr) (f : Fault)
    (h : epoll_wait_rearm st p = .error f) : benign f := by
  unfold epoll_wait_rearm at h
  repeat' split at h
  all_goals first
    | (cases h; done)
    | (simp only [Except.error.injEq] at h
       subst h
       first
         | (unfold benign; constructor <;> decide)
         | exact benign_sock_at _ _ _ (by assumption)
         | exact benign_op_at _ _ _ (by assumption)
         | exact benign_modify _ _ _ _ (by assumption)
         | exact benign_free_sock _ _ _ (by assumption)
         | exact benign_free_op _ _ _ (by assumption))

theorem benign_completion (K : Consts) (st : State) (ev : List epoll_event)
    (e : OVERLAPPED_ENTRY) (f : Fault) (h : epoll_wait_completion K st ev e = .error f) :
    benign f := by
  unfold epoll_wait_completion at h
  dsimp only at h
  repeat' split at h
  all_goals first
    | (cases h; done)
    | (simp only [Except.error.injEq] at h
       subst h
       first
         | (unfold benign; constructor <;> decide)
         | exact benign_sock_at _ _ _ (by assumption)
         | exact benign_op_at _ _ _ (by assumption)
         | exact benign_modify _ _ _ _ (by assumption)
         | exact benign_free_sock _ _ _ (by assumption)
         | exact benign_free_op _ _ _ (by assumption)
         | exact benign_rearm _ _ _ (by assumption)
         | (rename_i hre; split at hre; exact benign_rearm _ _ _ hre; cases hre))

theorem benign_completions (K : Consts) (es : List OVERLAPPED_ENTRY) :
    ∀ (st : State) (ev : List epoll_event) (f : Fault),
      epoll_wait_completions K st ev es = .error f → benign f := by
  induction es with
  | nil =>
    intro st ev f h
    simp [epoll_wait_completions] at h
  | cons e rest ih =>
    intro st ev f h
    simp only [epoll_wait_completions] at h
    split at h
    · rename_i err hstep
      cases h
      exact benign_completion K st ev e _ hstep
    · exact ih _ _ f h

theorem benign_dequeue (K : Consts) (maxevents timeout : Int) (due : Nat)
    (gqcs : List gqcs_env) :
    ∀ (st : State) (t : Nat) (calls : List gqcs_call) (f : Fault),
      epoll_wait_dequeue K maxevents timeout due st t calls gqcs = .error f → benign f := by
  induction gqcs with
  | nil =>
    intro st t calls f h
    simp only [epoll_wait_dequeue, Except.error.injEq] at h
    subst h
    unfold benign
    constructor <;> decide
  | cons env rest ih =>
    intro st t calls f h
    unfold epoll_wait_dequeue at h
    dsimp only at h
    repeat' split at h
    all_goals first
      | (cases h; done)
      | exact ih _ _ _ f h
      | (simp only [Except.error.injEq] at h
         subst h
         first
           | (unfold benign; constructor <;> decide)
           | exact benign_completions K _ _ _ _ (by assumption))

theorem benign_submit (K : Consts) (st : State) (p : Ptr) (env : afd_poll_env) (f : Fault)
    (h : epoll__submit_poll_op K st p env = .error f) (hI : heap_mandatory K st) :
    benign f := by
  unfold epoll__submit_poll_op at h
  dsimp only at h
  split at h
  · rename_i e he
    cases h
    exact benign_sock_at st p _ he
  · rename_i sd hsd
    have hm := hm_sock_at K st p sd hsd hI
    split at h
    · cases h
      unfold benign
      constructor <;> decide
    · split at h
      · rename_i hz
        exact absurd hz hm.1
      · split at h
        · rename_i hz
          exact absurd hz hm.2
        · repeat' split at h
          all_goals first
            | (cases h; done)
            | (simp only [Except.error.injEq] at h
               subst h
               first
                 | (unfold benign; constructor <;> decide)
                 | exact benign_sock_at _ _ _ (by assumption)
                 | exact benign_op_at _ _ _ (by assumption)
                 | exact benign_modify _ _ _ _ (by assumption)
                 | exact benign_free_sock _ _ _ (by assumption)
                 | exact benign_free_op _ _ _ (by assumption))

theorem benign_drain (K : Consts) (envs : List afd_poll_env) :
    ∀ (st : State) (f : Fault), epoll_wait_drain K st envs = .error f →
      heap_mandatory K st → benign f := by
  induction envs with
  | nil =>
    intro st f h hI
    unfold epoll_wait_drain at h
    split at h
    · cases h
    · cases h
      unfold benign
      constructor <;> decide
  | cons env rest ih =>
    intro st f h hI
    unfold epoll_wait_drain at h
    dsimp only at h
    split at h
    · cases h
    · split at h
      · rename_i e he
        cases h
        exact benign_sock_at _ _ _ he
      · split at h
        · cases h
          unfold benign
          constructor <;> decide
        · split at h
          · rename_i e hsub
            cases h
            split at hsub
            · cases hs : epoll__submit_poll_op K st st.port.attn env with
              | error e' =>
                rw [hs] at hsub
                cases hsub
                exact benign_submit K st _ env _ hs hI
              | ok a =>
                rw [hs] at hsub
                cases hsub
            · cases hsub
          · rename_i st1 hsub
            have hI1 : heap_mandatory K st1 :=
              hm_ite K _ _ _ _ hsub (fun h' => hm_submit_map K _ _ _ _ h' hI) hI
            split at h
            · rename_i e he
              cases h
              exact benign_sock_at _ _ _ he
            · split at h
              · rename_i e he
                cases h
                exact benign_modify _ _ _ _ he
              · rename_i st3 hmod
                exact ih st3 f h
                  (hm_modify K _ _ _ _ hmod (fun _ hr => hr) ((hm_set_port_iff K _ _).2 hI1))

theorem benign_wait (K : Consts) (st : State) (maxevents timeout : Int) (env : wait_env)
    (f : Fault) (h : epoll_wait K st maxevents timeout env = .error f)
    (hI : heap_mandatory K st) : benign f := by
  unfold epoll_wait at h
  split at h
  · rename_i e he
    cases h
    exact benign_drain K _ _ _ he hI
  · exact benign_dequeue K _ _ _ _ _ _ _ f h

/-- C8: in every state reachable by create, add, modify, delete and wait, every
registration in memory, so every one in the registry, has the ERR and the HUP
bit in its registered events, whatever masks the caller passed; hence neither
assertion on these bits (lines 166 and 167) fails, in a submission started from
the state or anywhere in an `epoll_wait` on it.  The constants `EPOLLERR` and
`EPOLLHUP` are non-zero 32-bit values. -/
theorem C8_mandatory_bits (K : Consts)
    (hE : K.EPOLLERR ≠ 0) (hE32 : K.EPOLLERR < W32)
    (hH : K.EPOLLHUP ≠ 0) (hH32 : K.EPOLLHUP < W32)
    (st : State) (hr : Reachable K st) :
    (∀ p r, st.socks p = some r →
      r.events &&& K.EPOLLERR ≠ 0 ∧ r.events &&& K.EPOLLHUP ≠ 0)
    ∧ (∀ p env, epoll__submit_poll_op K st p env ≠ .error (.assertion 166)
        ∧ epoll__submit_poll_op K st p env ≠ .error (.assertion 167))
    ∧ (∀ maxevents timeout env,
        epoll_wait K st maxevents timeout env ≠ .error (.assertion 166)
        ∧ epoll_wait K st maxevents timeout env ≠ .error (.assertion 167)) := by
  have hI : heap_mandatory K st :=
    hm_reachable K (fun m => mandatory_of_store K m hE hE32 hH hH32)
      (mandatory_of_tombstone K hE hE32 hH hH32) st hr
  refine ⟨fun p r h => hI p r h, ?_, ?_⟩
  · intro p env
    constructor
    · intro h
      exact (benign_submit K st p env _ h hI).1 rfl
    · intro h
      exact (benign_submit K st p env _ h hI).2 rfl
  · intro maxevents timeout env
    constructor
    · intro h
      exact (benign_wait K st maxevents timeout env _ h hI).1 rfl
    · intro h
      exact (benign_wait K st maxevents timeout env _ h hI).2 rfl

/-- Witness of C8: the state reached by create, add of socket `100` with mask
`in` and one wait. -/
theorem C8_mandatory_bits_witness :
    (∀ p r, demo_inflight.socks p = some r →
      r.events &&& abi.EPOLLERR ≠ 0 ∧ r.events &&& abi.EPOLLHUP ≠ 0)
    ∧ (∀ p env, epoll__submit_poll_op abi demo_inflight p env ≠ .error (.assertion 166)
        ∧ epoll__submit_poll_op abi demo_inflight p env ≠ .error (.assertion 167))
    ∧ (∀ maxevents timeout env,
        epoll_wait abi demo_inflight maxevents timeout env ≠ .error (.assertion 166)
        ∧ epoll_wait abi demo_inflight maxevents timeout env ≠ .error (.assertion 167)) :=
  C8_mandatory_bits abi (by decide) (by decide) (by decide) (by decide)
    demo_inflight demo_inflight_reachable

theorem sock_at_set_port (st : State) (f : epoll_port_data_s → epoll_port_data_s) (q : Ptr) :
    (st.set_port f).sock_at q = st.sock_at q := rfl

theorem sock_at_set_kernel (st : State) (k : List Ptr) (q : Ptr) :
    (st.set_kernel k).sock_at q = st.sock_at q := rfl

/-- C10, evaluated on the code: the result of `epoll_close` does not depend on
the return value of `CloseHandle`; on a fresh port, with `CloseHandle` failing,
it returns 0. -/
theorem C10_close_ignores_CloseHandle :
    (∀ (st : State) (env : close_env),
      epoll_close st { env with CloseHandle := false }
        = epoll_close st { env with CloseHandle := true })
    ∧ (epoll_close demo_created demo_close_env).map Prod.fst = .ok 0
    ∧ demo_close_env.CloseHandle = false := by
  refine ⟨fun _ _ => rfl, rfl, rfl⟩

/-! ## Poll-request submission -/

theorem submit_afd_events_eq (K : Consts) (events : Nat) :
    submit_afd_events K events = driver_mask_amended K events := by
  unfold submit_afd_events driver_mask_amended
  simp only [ite_lor_eq, land_lor_ne_zero_iff, or_assoc]

theorem op_at_set_op_self (st : State) (p : Ptr) (o : epoll_op_s) (hp : p ≠ NULL) :
    (st.set_op p o).op_at p = .ok o := by
  simp [State.op_at, State.set_op, hp]

theorem op_at_set_sock (st : State) (p q : Ptr) (r : epoll_sock_data_s) :
    (st.set_sock p r).op_at q = st.op_at q := rfl

theorem op_at_set_port (st : State) (f : epoll_port_data_s → epoll_port_data_s) (q : Ptr) :
    (st.set_port f).op_at q = st.op_at q := rfl

theorem op_at_set_kernel (st : State) (k : List Ptr) (q : Ptr) :
    (st.set_kernel k).op_at q = st.op_at q := rfl

/-- C11, as amended: the poll request that `epoll__submit_poll_op` writes into
the spare operation carries the driver mask abort | connect-fail | local-close,
plus receive | accept when the events contain `in` or read-normal, plus
receive-expedited when they contain `in` or read-band, plus send | connect when
they contain `out`, write-normal or read-band, and no other bit. -/
theorem C11_submit_driver_mask (K : Consts) (st st' : State) (p : Ptr) (env : afd_poll_env)
    (ret : Int) (sd : epoll_sock_data_s)
    (hs : st.sock_at p = .ok sd)
    (hrun : epoll__submit_poll_op K st p env = .ok (ret, st')) :
    (st'.op_at sd.free_op).map (fun o => o.Events)
      = .ok (driver_mask_amended K sd.events) := by
  unfold epoll__submit_poll_op at hrun
  rw [hs] at hrun
  dsimp only at hrun
  repeat' split at hrun
  all_goals first
    | (cases hrun; done)
    | (rename_i hfree _ _ _ _ _ _ _
       simp only [Except.ok.injEq, Prod.mk.injEq] at hrun
       obtain ⟨_, rfl⟩ := hrun
       simp only [op_at_set_kernel, op_at_set_port, op_at_set_sock,
         op_at_set_op_self _ _ _ hfree, Except.map, submit_afd_events_eq])

/-- Witness of C11: the submission for socket `100` with events
`in | err | hup`. -/
theorem C11_submit_driver_mask_witness :
    (demo_submitted.op_at demo_added_sock.free_op).map (fun o => o.Events)
      = .ok (driver_mask_amended abi demo_added_sock.events) :=
  C11_submit_driver_mask abi demo_added demo_submitted 5 demo_afd_ok 0 demo_added_sock rfl rfl

/-- Counterexample to C11 as stated: for the events `in | err | hup`, which do
not contain read-band, the poll request written by the submission carries the
mask `0x1b3`, which has the receive-expedited bit; the claimed mask is
`0x1b1`. -/
theorem C11_expedited_for_in :
    (epoll__submit_poll_op abi demo_added 5 demo_afd_ok).map
        (fun r => (r.2.ops 7).map (fun o => o.Events)) = .ok (some 0x1b3)
    ∧ driver_mask_claimed abi demo_added_sock.events = 0x1b1
    ∧ demo_added_sock.events &&& abi.EPOLLRDBAND = 0
    ∧ 0x1b3 &&& abi.AFD_POLL_RECEIVE_EXPEDITED ≠ 0 := by
  refine ⟨rfl, by decide, by decide, by decide⟩

/-- C12, evaluated on the code: the submission for socket `100`, which has a
spare operation, returns 0, yet `submitted_events` is still 0 while
`events & EPOLL_EVENT_MASK` is `0x19`; `free_op` is null, the generation is 1
and the in-flight counter went from 0 to 1. -/
theorem C12_submitted_events_not_stored :
    (epoll__submit_poll_op abi demo_added 5 demo_afd_ok).map
        (fun r => (r.1, (r.2.socks 5).map (fun sd =>
          (sd.submitted_events, sd.events &&& abi.EPOLL_EVENT_MASK, sd.free_op,
            sd.op_generation)), r.2.port.pending_ops_count))
      = .ok (0, some (0, 0x19, NULL, 1), 1)
    ∧ demo_added.port.pending_ops_count = 0 := by
  constructor
  · rfl
  · rfl

/-- C13, evaluated on the code: in the state reached by create, add and one
wait, the operation of socket `100` is in flight, its generation is positive
and `free_op` is null, but `submitted_events` is zero. -/
theorem C13_submitted_events_zero_in_flight :
    Reachable abi demo_inflight
    ∧ demo_inflight.kernel = [7]
    ∧ (demo_inflight.socks 5).map (fun sd =>
        (decide (0 < sd.op_generation), decide (sd.submitted_events ≠ 0),
          decide (sd.free_op = NULL)))
      = some (true, false, true) := by
  exact ⟨demo_inflight_reachable, rfl, rfl⟩

/-- C14, evaluated on the code: in a reachable state in which socket `100` is
registered with generation 1 and its operation in flight, `EPOLL_CTL_DEL` of the
socket fails the assertion of line 348. -/
theorem C14_delete_assertion_fails :
    Reachable abi demo_inflight
    ∧ RB_FIND demo_inflight (lookup_key 100) demo_inflight.port.sock_data_tree = .ok 5
    ∧ (demo_inflight.socks 5).map (fun sd => (sd.op_generation, sd.submitted_events))
        = some (1, 0)
    ∧ epoll_ctl_del demo_inflight 100 = .error (.assertion 348) := by
  exact ⟨demo_inflight_reachable, rfl, rfl, rfl⟩

theorem demo_modified_reachable : Reachable abi demo_modified :=
  Reachable.ctl demo_inflight abi.EPOLL_CTL_MOD 100 ⟨5, 0xAA⟩ demo_mod_env
    demo_modified_result demo_inflight_reachable rfl

/-- C15, evaluated on the code: socket `100` has its operation in flight and
no spare; `EPOLL_CTL_MOD` with the new mask `in | out` returns 0 and puts the
registration on the attention list, but its `free_op` is still null; the next
`epoll_wait` fails the assertion `op != NULL` of line 163. -/
theorem C15_modify_leaves_no_spare :
    Reachable abi demo_modified
    ∧ demo_modified_result.ret = 0
    ∧ demo_modified.port.attn = 5
    ∧ (demo_modified.socks 5).map (fun sd => (sd.attn, sd.free_op)) = some (1, NULL)
    ∧ epoll_wait abi demo_modified 4 0 demo_wait_env = .error (.assertion 163) := by
  exact ⟨demo_modified_reachable, rfl, rfl, rfl, rfl⟩

theorem demo_rearmed_reachable : Reachable abi demo_rearmed :=
  Reachable.wait demo_inflight 4 0 demo_idle_env demo_rearmed_result
    demo_inflight_reachable rfl

/-- C16, evaluated on the code: after a completion that reports nothing of
interest, the registration of socket `100` is the head of the attention list
but its `attn` flag is 0; the next `epoll_wait` fails the assertion of line
376 on the list head. -/
theorem C16_rearmed_without_flag :
    Reachable abi demo_rearmed
    ∧ demo_rearmed_result.ret = 0
    ∧ demo_rearmed.port.attn = 5
    ∧ (demo_rearmed.socks 5).map (fun sd => sd.attn) = some 0
    ∧ epoll_wait abi demo_rearmed 4 0 demo_wait_env = .error (.assertion 376) := by
  exact ⟨demo_rearmed_reachable, rfl, rfl, rfl, rfl⟩

/-- C18, evaluated on the code: the sockets `2^32 + 100` and `100` are distinct
and compare equal; the handles `2^31` and `0` compare negative in both
directions; and `EPOLL_CTL_ADD` of the unregistered socket `2^32 + 100` is
refused as already existing because socket `100` is registered. -/
theorem C18_compare_truncates :
    epoll_socket_compare (lookup_key (2 ^ 32 + 100)) (lookup_key 100) = 0
    ∧ (2 ^ 32 + 100 : Nat) ≠ 100
    ∧ epoll_socket_compare (lookup_key (2 ^ 31)) (lookup_key 0) < 0
    ∧ epoll_socket_compare (lookup_key 0) (lookup_key (2 ^ 31)) < 0
    ∧ (epoll_ctl abi demo_inflight abi.EPOLL_CTL_ADD (2 ^ 32 + 100) ⟨1, 0xBB⟩
          demo_exists_env).map (fun r => (r.ret, r.last_error))
        = .ok (-1, some .ERROR_ALREADY_EXISTS) := by
  refine ⟨by decide, by decide, by decide, by decide, rfl⟩

/-- C19, evaluated on the code: a wait with timeout 10 started at tick 0; after
a first batch without reportable events the tick count is 11, past the
deadline; the second dequeue call is made with the timeout `2^32 - 1`, the
value `INFINITE`, instead of a value of at most 10. -/
theorem C19_remaining_timeout_wraps :
    (epoll_wait abi demo_inflight 4 10 demo_late_env).map (fun r => r.calls)
      = .ok [⟨4, 10⟩, ⟨4, 4294967295⟩]
    ∧ INFINITE = 4294967295 := by
  constructor
  · rfl
  · rfl

/-- C20, evaluated on the code: `EPOLL_CTL_ADD` with the mask `0xFFFFFFFF`
returns 0 and stores the tombstone value in `events`; when the completion of
the registration's operation is processed, no event is reported and the
registration is freed although it is still in the registry. -/
theorem C20_all_bits_is_tombstone :
    demo_allbits_result.ret = 0
    ∧ (demo_allbits.socks 5).map (fun sd => sd.events) = some TOMBSTONE
    ∧ (epoll_wait abi demo_allbits 4 0 demo_allbits_env).map
        (fun r => (r.ret, r.events, (r.st.socks 5).isSome, r.st.port.sock_data_tree))
      = .ok (0, [], false, [5]) := by
  refine ⟨rfl, rfl, rfl⟩

/-! ## One submission per registration and wait -/

theorem modify_sock_eq (st st' : State) (p : Ptr) (f : epoll_sock_data_s → epoll_sock_data_s)
    (h : st.modify_sock p f = .ok st') :
    ∃ r, st.sock_at p = .ok r ∧ st' = st.set_sock p (f r) := by
  unfold State.modify_sock at h
  split at h
  · rename_i r hr
    cases h
    exact ⟨r, hr, rfl⟩
  · cases h

theorem compare_self (sock : Nat) (sd : epoll_sock_data_s) (h : sd.sock = sock) :
    epoll_socket_compare (lookup_key sock) sd = 0 := by
  unfold epoll_socket_compare lookup_key
  simp only [h]
  have h1 : sock % W64 < W64 := Nat.mod_lt _ (by unfold W64; positivity)
  have h2 : (sock % W64 + W64 - sock % W64) % W64 = 0 := by
    have : sock % W64 + W64 - sock % W64 = W64 := by omega
    rw [this, Nat.mod_self]
  rw [h2]
  decide

theorem RB_FIND_head (st : State) (sock : Nat) (p : Ptr) (t : List Ptr)
    (sd : epoll_sock_data_s) (hp : p ≠ NULL) (hs : st.socks p = some sd)
    (hsock : sd.sock = sock) :
    RB_FIND st (lookup_key sock) (p :: t) = .ok p := by
  have hat : st.sock_at p = .ok sd := (sock_at_ok_iff st p sd).2 ⟨hp, hs⟩
  simp only [RB_FIND, hat, compare_self sock sd hsock, if_true]

theorem RB_INSERT_new (st st' : State) (elm found : Ptr)
    (h : RB_INSERT st elm = .ok (found, st')) (hf : ¬ found ≠ NULL) :
    st' = st.set_port fun pd => { pd with sock_data_tree := elm :: pd.sock_data_tree } := by
  unfold RB_INSERT at h
  split at h
  · cases h
  · split at h
    · cases h
    · split at h
      · simp only [Except.ok.injEq, Prod.mk.injEq] at h
        rename_i hne
        rw [h.1] at hne
        exact absurd hne hf
      · simp only [Except.ok.injEq, Prod.mk.injEq] at h
        exact h.2.symm

theorem store_land_err (K : Consts) (m : Nat) (hE32 : K.EPOLLERR < W32) :
    (m ||| K.EPOLLERR ||| K.EPOLLHUP) % W32 &&& K.EPOLLERR = K.EPOLLERR := by
  rw [land_mod_W32 _ _ hE32]
  apply Nat.eq_of_testBit_eq
  intro i
  simp only [Nat.testBit_and, Nat.testBit_or]
  cases m.testBit i <;> cases K.EPOLLERR.testBit i <;> cases K.EPOLLHUP.testBit i <;> rfl

theorem need_submit (K : Consts) (m : Nat) (hE32 : K.EPOLLERR < W32)
    (hmask : K.EPOLLERR &&& K.EPOLL_EVENT_MASK ≠ 0) :
    (m ||| K.EPOLLERR ||| K.EPOLLHUP) % W32 &&& K.EPOLL_EVENT_MASK &&& bnot32 0 ≠ 0 := by
  have hx := store_land_err K m hE32
  have hlt : (m ||| K.EPOLLERR ||| K.EPOLLHUP) % W32 < W32 :=
    Nat.mod_lt _ (by unfold W32; positivity)
  generalize (m ||| K.EPOLLERR ||| K.EPOLLHUP) % W32 = x at hx hlt
  have hy : x &&& K.EPOLL_EVENT_MASK ≠ 0 := by
    intro h0
    apply hmask
    rw [← hx, Nat.and_assoc, Nat.and_comm K.EPOLLERR, ← Nat.and_assoc, h0, Nat.zero_and]
  have hyl : x &&& K.EPOLL_EVENT_MASK < 2 ^ 32 := by
    have := @Nat.and_le_left x K.EPOLL_EVENT_MASK
    unfold W32 at hlt
    omega
  have hb : bnot32 0 = 2 ^ 32 - 1 := by
    unfold bnot32 W32
    norm_num
  rw [hb, Nat.and_pow_two_sub_one_of_lt_two_pow hyl]
  exact hy

/-! ## Invariants over the registrations in memory -/

theorem drain_traced_snd (K : Consts) (envs : List afd_poll_env) :
    ∀ st : State, (epoll_wait_drain_traced K st envs).2 = epoll_wait_drain K st envs := by
  induction envs with
  | nil =>
    intro st
    unfold epoll_wait_drain_traced epoll_wait_drain
    split <;> rfl
  | cons env rest ih =>
    intro st
    unfold epoll_wait_drain_traced epoll_wait_drain
    dsimp only
    repeat' split
    all_goals first
      | rfl
      | exact ih _
      | (simp_all; done)

theorem submit_ready_run (K : Consts) (st : State) (x : Ptr) (sd : epoll_sock_data_s)
    (env : afd_poll_env) (hx : x ≠ NULL) (hs : st.socks x = some sd)
    (hr : submit_ready K st sd) :
    ∃ ret st1, epoll__submit_poll_op K st x env = .ok (ret, st1)
      ∧ submit_poll_call K st x
          = some ⟨sd.peer_sock, sd.base_sock, submit_afd_events K sd.events, sd.free_op, x⟩
      ∧ st1.port.attn = st.port.attn
      ∧ st1.socks = Function.update st.socks x (some
          { sd with op_generation := sd.op_generation + 1,
                    free_op := if afd_accepted env then NULL else sd.free_op })
      ∧ (∀ o, (st1.ops o).isSome = (st.ops o).isSome)
      ∧ st1.kernel = st.kernel ++ (if afd_accepted env then [sd.free_op] else [])
      ∧ (st1.op_at sd.free_op).map (fun o => (o.Handle, o.Events, o.sock_data, o.generation))
          = .ok (sd.base_sock, submit_afd_events K sd.events, x, sd.op_generation + 1) := by
  obtain ⟨⟨hE, hH⟩, hfree, hlive, hgen⟩ := hr
  have hat : st.sock_at x = .ok sd := (sock_at_ok_iff st x sd).2 ⟨hx, hs⟩
  have hover : ¬ INT_MAX < sd.op_generation + 1 := not_lt.2 hgen
  obtain ⟨o, ho⟩ : ∃ o, st.ops sd.free_op = some o := Option.isSome_iff_exists.1 hlive
  have hopat : st.op_at sd.free_op = .ok o := (op_at_ok_iff st _ o).2 ⟨hfree, ho⟩
  have hcall : submit_poll_call K st x
      = some ⟨sd.peer_sock, sd.base_sock, submit_afd_events K sd.events, sd.free_op, x⟩ := by
    unfold submit_poll_call
    rw [hat]
    simp only [hfree, if_false, hE, hH, hover, hopat]
  have hops : ∀ (v : epoll_op_s) (a : Ptr),
      ((Function.update st.ops sd.free_op (some v)) a).isSome = (st.ops a).isSome := by
    intro v a
    by_cases ha : a = sd.free_op
    · rw [ha, Function.update_same, hlive]
      rfl
    · rw [Function.update_noteq ha]
  cases hres : epoll__submit_poll_op K st x env with
  | error e =>
    exfalso
    unfold epoll__submit_poll_op at hres
    rw [hat] at hres
    simp only [hfree, if_false, hE, hH, hover, hopat] at hres
    split at hres <;> cases hres
  | ok a =>
    obtain ⟨ret, st1⟩ := a
    unfold epoll__submit_poll_op at hres
    rw [hat] at hres
    simp only [hfree, if_false, hE, hH, hover, hopat] at hres
    split at hres
    · rename_i hacc
      have hacc' : afd_accepted env = false := by
        simp [afd_accepted, hacc]
      simp only [Except.ok.injEq, Prod.mk.injEq] at hres
      obtain ⟨rfl, rfl⟩ := hres
      refine ⟨_, _, rfl, hcall, rfl, ?_, ?_, ?_, ?_⟩
      · simp only [State.set_op, State.set_sock, hacc', Bool.false_eq_true, if_false]
      · intro a
        exact hops _ a
      · simp only [State.set_op, State.set_sock, hacc', Bool.false_eq_true, if_false,
          List.append_nil]
      · simp only [op_at_set_op_self _ _ _ hfree, Except.map]
    · rename_i hacc
      have hacc' : afd_accepted env = true := by
        unfold afd_accepted
        rw [decide_eq_false hacc]
        rfl
      simp only [Except.ok.injEq, Prod.mk.injEq] at hres
      obtain ⟨rfl, rfl⟩ := hres
      refine ⟨_, _, rfl, hcall, rfl, ?_, ?_, ?_, ?_⟩
      · simp only [State.set_op, State.set_sock, State.set_port, State.set_kernel, hacc',
          if_true, Function.update_idem]
      · intro a
        exact hops _ a
      · simp only [State.set_op, State.set_sock, State.set_port, State.set_kernel, hacc',
          if_true]
      · simp only [op_at_set_kernel, op_at_set_port, op_at_set_sock,
          op_at_set_op_self _ _ _ hfree, Except.map]

theorem chain_transfer (K : Consts) (st st' : State) :
    ∀ (l : List Ptr) (h : Ptr),
      (∀ x ∈ l, ∀ sd, st.socks x = some sd → sd.attn ≠ 0 →
        (needs_submission K sd = true → submit_ready K st sd) →
        ∃ sd', st'.socks x = some sd' ∧ sd'.attn ≠ 0 ∧ sd'.attn_next = sd.attn_next
          ∧ (needs_submission K sd' = true → submit_ready K st' sd')) →
      attn_chain K st h l → attn_chain K st' h l := by
  intro l
  induction l with
  | nil =>
    intro h _ hc
    exact hc
  | cons x l ih =>
    intro h hstep hc
    obtain ⟨hh, hx, sd, hs, hflag, hready, hrest⟩ := hc
    obtain ⟨sd', hs', hflag', hnext, hready'⟩ :=
      hstep x (List.mem_cons_self _ _) sd hs hflag hready
    refine ⟨hh, hx, sd', hs', hflag', hready', ?_⟩
    rw [hnext]
    exact ih _ (fun y hy => hstep y (List.mem_cons_of_mem _ hy)) hrest

theorem chain_frame (K : Consts) (st st' : State) (l : List Ptr) (h : Ptr)
    (hsocks : ∀ x ∈ l, st'.socks x = st.socks x)
    (hops : ∀ o, (st.ops o).isSome = true → (st'.ops o).isSome = true)
    (hc : attn_chain K st h l) : attn_chain K st' h l := by
  refine chain_transfer K st st' l h ?_ hc
  intro x hx sd hs hflag hready
  refine ⟨sd, by rw [hsocks x hx]; exact hs, hflag, rfl, ?_⟩
  intro hn
  obtain ⟨h1, h2, h3, h4⟩ := hready hn
  exact ⟨h1, h2, hops _ h3, h4⟩

theorem submit_poll_call_congr (K : Consts) (st st' : State) (x : Ptr)
    (hsocks : st'.socks x = st.socks x)
    (hops : ∀ o, (st'.ops o).isSome = (st.ops o).isSome) :
    submit_poll_call K st' x = submit_poll_call K st x := by
  unfold submit_poll_call State.sock_at State.op_at
  rw [hsocks]
  by_cases hx : x = NULL
  · simp only [hx, if_true]
  · simp only [hx, if_false]
    cases hsx : st.socks x with
    | none => rfl
    | some sd =>
      dsimp only
      have ho := hops sd.free_op
      by_cases hf : sd.free_op = NULL
      · simp only [hf, if_true]
      · cases h1 : st.ops sd.free_op <;> cases h2 : st'.ops sd.free_op
        · simp only [hf, if_false]
        · rw [h1, h2] at ho
          cases ho
        · rw [h1, h2] at ho
          cases ho
        · simp only [hf, if_false]

theorem drain_call_congr (K : Consts) (st st' : State) (x : Ptr)
    (hsocks : st'.socks x = st.socks x)
    (hops : ∀ o, (st'.ops o).isSome = (st.ops o).isSome) :
    drain_call K st' x = drain_call K st x := by
  unfold drain_call State.sock_at
  rw [hsocks, submit_poll_call_congr K st st' x hsocks hops]

theorem drain_in_flight_congr (K : Consts) (st st' : State) :
    ∀ (l : List Ptr) (envs : List afd_poll_env),
      (∀ x ∈ l, drain_call K st' x = drain_call K st x) →
      drain_in_flight K st' l envs = drain_in_flight K st l envs := by
  intro l
  induction l with
  | nil =>
    intro envs _
    simp only [drain_in_flight]
  | cons x l ih =>
    intro envs h
    cases envs with
    | nil => simp only [drain_in_flight]
    | cons env rest =>
      simp only [drain_in_flight]
      rw [h x (List.mem_cons_self _ _), ih rest (fun y hy => h y (List.mem_cons_of_mem _ hy))]

theorem drain_turn (K : Consts) (st : State) (x : Ptr) (sd : epoll_sock_data_s)
    (env : afd_poll_env) (hx : x ≠ NULL) (hs : st.socks x = some sd)
    (hready : needs_submission K sd = true → submit_ready K st sd) :
    ∃ st1 sd1,
      (if sd.events &&& K.EPOLL_EVENT_MASK &&& bnot32 sd.submitted_events ≠ 0 then
          (epoll__submit_poll_op K st x env).map Prod.snd
        else .ok st) = .ok st1
      ∧ (if sd.events &&& K.EPOLL_EVENT_MASK &&& bnot32 sd.submitted_events ≠ 0 then
          (submit_poll_call K st x).toList
        else []) = (drain_call K st x).toList
      ∧ st1.port.attn = st.port.attn
      ∧ st1.socks = Function.update st.socks x (some sd1)
      ∧ sd1.attn_next = sd.attn_next
      ∧ sd1.op_generation
          = (if needs_submission K sd then sd.op_generation + 1 else sd.op_generation)
      ∧ (∀ o, (st1.ops o).isSome = (st.ops o).isSome)
      ∧ st1.kernel = st.kernel ++
          (match drain_call K st x with
            | some c => if afd_accepted env then [c.op] else []
            | none => []) := by
  have hat : st.sock_at x = .ok sd := (sock_at_ok_iff st x sd).2 ⟨hx, hs⟩
  by_cases hc : sd.events &&& K.EPOLL_EVENT_MASK &&& bnot32 sd.submitted_events ≠ 0
  · have hn : needs_submission K sd = true := by
      unfold needs_submission
      exact decide_eq_true hc
    obtain ⟨ret, st1, hrun, hcall, hattn, hsocks, hops, hker, _⟩ :=
      submit_ready_run K st x sd env hx hs (hready hn)
    have hdc : drain_call K st x
        = some ⟨sd.peer_sock, sd.base_sock, submit_afd_events K sd.events, sd.free_op, x⟩ := by
      unfold drain_call
      rw [hat]
      simp only [hn, if_true, hcall]
    refine ⟨st1, _, ?_, ?_, hattn, hsocks, rfl, ?_, hops, ?_⟩
    · rw [if_pos hc, hrun]
      rfl
    · rw [if_pos hc, hdc, hcall]
    · simp only [hn, if_true]
    · rw [hker, hdc]
  · have hn : needs_submission K sd = false := by
      unfold needs_submission
      exact decide_eq_false hc
    have hdc : drain_call K st x = none := by
      unfold drain_call
      rw [hat]
      simp only [hn, Bool.false_eq_true, if_false]
    refine ⟨st, sd, ?_, ?_, rfl, ?_, rfl, ?_, fun _ => rfl, ?_⟩
    · rw [if_neg hc]
    · rw [if_neg hc, hdc]
      rfl
    · funext a
      by_cases ha : a = x
      · rw [ha, Function.update_same, hs]
      · rw [Function.update_noteq ha]
    · simp only [hn, Bool.false_eq_true, if_false]
    · rw [hdc]
      simp only [List.append_nil]

theorem drain_chain (K : Consts) :
    ∀ (l : List Ptr) (st : State) (envs : List afd_poll_env),
      attn_chain K st st.port.attn l → l.Nodup → l.length ≤ envs.length →
      ∃ st', epoll_wait_drain_traced K st envs = (l.filterMap (drain_call K st), .ok st')
        ∧ st'.kernel = st.kernel ++ drain_in_flight K st l envs
        ∧ st'.port.attn = NULL
        ∧ (∀ y, y ∉ l → st'.socks y = st.socks y)
        ∧ (∀ x ∈ l, ∀ sd, st.socks x = some sd →
            ∃ sd', st'.socks x = some sd' ∧ sd'.attn = 0
              ∧ sd'.op_generation
                  = (if needs_submission K sd then sd.op_generation + 1
                      else sd.op_generation)) := by
  intro l
  induction l with
  | nil =>
    intro st envs hc _ _
    have hnull : st.port.attn = NULL := hc
    refine ⟨st.set_port fun pd => { pd with attn := NULL }, ?_, ?_, rfl, fun _ _ => rfl, ?_⟩
    · cases envs <;> simp only [epoll_wait_drain_traced, hnull, if_true, List.filterMap_nil]
    · simp only [drain_in_flight, List.append_nil]
      rfl
    · intro x hx
      cases hx
  | cons x l ih =>
    intro st envs hc hnd hlen
    cases envs with
    | nil => simp at hlen
    | cons env rest =>
      obtain ⟨hhead, hx, sd, hs, hflag, hready, hrest⟩ := hc
      have hat : st.sock_at st.port.attn = .ok sd := by
        rw [hhead]
        exact (sock_at_ok_iff st x sd).2 ⟨hx, hs⟩
      have hxl : x ∉ l := (List.nodup_cons.1 hnd).1
      have hnd' : l.Nodup := (List.nodup_cons.1 hnd).2
      obtain ⟨st1, sd1, hsub, hcalls, hattn1, hsocks1, hnext1, hgen1, hops1, hker1⟩ :=
        drain_turn K st x sd env hx hs hready
      have hat1 : st1.sock_at x = .ok sd1 := by
        refine (sock_at_ok_iff st1 x sd1).2 ⟨hx, ?_⟩
        rw [hsocks1, Function.update_same]
      have hsocks3 : ∀ y, y ≠ x →
          ((st1.set_port fun pd => { pd with attn := sd1.attn_next }).set_sock x
            { sd1 with attn_prev := NULL, attn_next := NULL, attn := 0 }).socks y
            = st.socks y := by
        intro y hy
        simp only [State.set_sock, State.set_port, Function.update_noteq hy, hsocks1]
      have hdc : ∀ y ∈ l,
          drain_call K ((st1.set_port fun pd => { pd with attn := sd1.attn_next }).set_sock x
            { sd1 with attn_prev := NULL, attn_next := NULL, attn := 0 }) y
            = drain_call K st y := by
        intro y hy
        refine drain_call_congr K st _ y (hsocks3 y ?_) hops1
        intro hyx
        rw [hyx] at hy
        exact hxl hy
      obtain ⟨st', htr, hker, hattn', hframe, hnodes⟩ :=
        ih ((st1.set_port fun pd => { pd with attn := sd1.attn_next }).set_sock x
            { sd1 with attn_prev := NULL, attn_next := NULL, attn := 0 }) rest
          (by
            show attn_chain K _ sd1.attn_next l
            rw [hnext1]
            refine chain_frame K st _ l _ ?_ ?_ hrest
            · intro y hy
              refine hsocks3 y ?_
              intro hyx
              rw [hyx] at hy
              exact hxl hy
            · intro o ho
              show (st1.ops o).isSome = true
              rw [hops1 o]
              exact ho)
          hnd' (by simpa using hlen)
      refine ⟨st', ?_, ?_, hattn', ?_, ?_⟩
      · have hne : ¬ st.port.attn = NULL := by
          rw [hhead]
          exact hx
        unfold epoll_wait_drain_traced
        simp only [hne, if_false, hat, hflag]
        rw [hhead]
        simp only [hsub, hcalls, State.modify_sock, sock_at_set_port, hat1, htr]
        rw [List.filterMap_congr hdc, List.filterMap_cons]
        cases drain_call K st x <;> rfl
      · rw [hker, drain_in_flight_congr K st _ l rest hdc]
        show st1.kernel ++ _ = _
        rw [hker1]
        simp only [drain_in_flight, List.append_assoc]
      · intro y hy
        rw [hframe y (fun h => hy (List.mem_cons_of_mem _ h))]
        exact hsocks3 y (fun h => hy (by rw [h]; exact List.mem_cons_self _ _))
      · intro z hz sdz hsz
        rcases List.mem_cons.1 hz with hzx | hzl
        · subst hzx
          have hsd : sdz = sd := by
            rw [hs] at hsz
            exact (Option.some.inj hsz).symm
          subst hsd
          refine ⟨{ sd1 with attn_prev := NULL, attn_next := NULL, attn := 0 }, ?_, rfl, hgen1⟩
          rw [hframe z hxl]
          simp only [State.set_sock, Function.update_same]
        · refine hnodes z hzl sdz ?_
          rw [hsocks3 z ?_]
          · exact hsz
          · intro hzx
            rw [hzx] at hzl
            exact hxl hzl

theorem compare_eq_zero_iff (a b : epoll_sock_data_s) :
    epoll_socket_compare a b = 0 ↔ a.sock % W32 = b.sock % W32 := by
  unfold epoll_socket_compare toInt32 W32 W64
  split <;> omega

theorem RB_FIND_null (st : State) (key : epoll_sock_data_s) :
    ∀ (t : List Ptr), RB_FIND st key t = .ok NULL →
      ∀ x ∈ t, ∃ sd, st.sock_at x = .ok sd ∧ epoll_socket_compare key sd ≠ 0 := by
  intro t
  induction t with
  | nil =>
    intro _ x hx
    cases hx
  | cons y t ih =>
    intro h x hx
    simp only [RB_FIND] at h
    split at h
    · cases h
    · rename_i sd hsd
      split at h
      · simp only [Except.ok.injEq] at h
        rw [h] at hsd
        simp [State.sock_at] at hsd
      · rename_i hcmp
        rcases List.mem_cons.1 hx with hxy | hxt
        · rw [hxy]
          exact ⟨sd, hsd, hcmp⟩
        · exact ih h x hxt

theorem RB_FIND_found (st : State) (key : epoll_sock_data_s) (p : Ptr) (hp : p ≠ NULL) :
    ∀ (t : List Ptr), RB_FIND st key t = .ok p →
      p ∈ t ∧ ∃ sd, st.sock_at p = .ok sd ∧ epoll_socket_compare key sd = 0 := by
  intro t
  induction t with
  | nil =>
    intro h
    simp only [RB_FIND, Except.ok.injEq] at h
    exact absurd h.symm hp
  | cons y t ih =>
    intro h
    simp only [RB_FIND] at h
    split at h
    · cases h
    · rename_i sd hsd
      split at h
      · rename_i hcmp
        simp only [Except.ok.injEq] at h
        subst h
        exact ⟨List.mem_cons_self _ _, sd, hsd, hcmp⟩
      · obtain ⟨h1, h2⟩ := ih h
        exact ⟨List.mem_cons_of_mem _ h1, h2⟩

theorem RB_FIND_congr (st st' : State) (key : epoll_sock_data_s) (p : Ptr) :
    ∀ (t : List Ptr),
      (∀ x ∈ t, ∀ sd, st.sock_at x = .ok sd →
        ∃ sd', st'.sock_at x = .ok sd' ∧ sd'.sock = sd.sock) →
      RB_FIND st key t = .ok p → RB_FIND st' key t = .ok p := by
  intro t
  induction t with
  | nil =>
    intro _ h
    exact h
  | cons y t ih =>
    intro hsame h
    simp only [RB_FIND] at h ⊢
    split at h
    · cases h
    · rename_i sd hsd
      obtain ⟨sd', hsd', hsock⟩ := hsame y (List.mem_cons_self _ _) sd hsd
      rw [hsd']
      have hcmp : epoll_socket_compare key sd' = epoll_socket_compare key sd := by
        unfold epoll_socket_compare
        rw [hsock]
      simp only [hcmp]
      split at h
      · rename_i hz
        rw [if_pos hz]
        exact h
      · rename_i hz
        rw [if_neg hz]
        exact ih (fun x hx => hsame x (List.mem_cons_of_mem _ hx)) h

theorem RB_INSERT_null (st st' : State) (elm found : Ptr)
    (h : RB_INSERT st elm = .ok (found, st')) (hf : ¬ found ≠ NULL) :
    ∃ r, st.sock_at elm = .ok r ∧ RB_FIND st r st.port.sock_data_tree = .ok NULL := by
  unfold RB_INSERT at h
  split at h
  · cases h
  · rename_i r hr
    split at h
    · cases h
    · rename_i f hfind
      split at h
      · simp only [Except.ok.injEq, Prod.mk.injEq] at h
        rename_i hne
        rw [h.1] at hne
        exact absurd hne hf
      · rename_i hnull
        exact ⟨r, hr, by rw [hfind, not_not.1 hnull]⟩

theorem push_add_effect (st st' : State) (y : Ptr) (sd0 : epoll_sock_data_s)
    (hs : st.socks y = some sd0) (hrun : attn_push_add st y = .ok st') :
    st'.port = { st.port with attn := y } ∧ st'.ops = st.ops ∧ st'.kernel = st.kernel
    ∧ (∃ prev, st'.socks y = some
        { sd0 with attn := 1, attn_prev := prev, attn_next := st.port.attn })
    ∧ (∀ z, z ≠ y → ∀ sd, st.socks z = some sd →
        ∃ prev, st'.socks z = some { sd with attn_prev := prev }) := by
  unfold attn_push_add at hrun
  split at hrun
  · cases hrun
  · rename_i st1 hm1
    obtain ⟨r, hr, rfl⟩ := modify_sock_eq _ _ _ _ hm1
    have hr0 : r = sd0 := by
      have := ((sock_at_ok_iff st y r).1 hr).2
      rw [hs] at this
      exact (Option.some.inj this).symm
    subst hr0
    split at hrun
    · split at hrun
      · cases hrun
      · rename_i st2 hm2
        cases hrun
        obtain ⟨r2, hr2, rfl⟩ := modify_sock_eq _ _ _ _ hm2
        refine ⟨rfl, rfl, rfl, ?_, ?_⟩
        · by_cases hh : st.port.attn = y
          · have hr2' := ((sock_at_ok_iff _ _ _).1 hr2).2
            simp only [State.set_sock, hh, Function.update_same, Option.some.injEq] at hr2'
            refine ⟨y, ?_⟩
            simp only [State.set_sock, State.set_port, hh, Function.update_same, ← hr2']
          · refine ⟨NULL, ?_⟩
            simp only [State.set_sock, State.set_port, Function.update_noteq (Ne.symm hh),
              Function.update_same]
        · intro z hz sd hsz
          by_cases hh : z = st.port.attn
          · have hr2' := ((sock_at_ok_iff _ _ _).1 hr2).2
            simp only [State.set_sock, ← hh, Function.update_noteq hz, hsz,
              Option.some.injEq] at hr2'
            refine ⟨y, ?_⟩
            simp only [State.set_sock, State.set_port, ← hh, Function.update_same, ← hr2']
          · refine ⟨sd.attn_prev, ?_⟩
            simp only [State.set_sock, State.set_port, Function.update_noteq hh,
              Function.update_noteq hz, hsz]
    · cases hrun
      refine ⟨rfl, rfl, rfl, ⟨NULL, ?_⟩, ?_⟩
      · simp only [State.set_sock, State.set_port, Function.update_same]
      · intro z hz sd hsz
        refine ⟨sd.attn_prev, ?_⟩
        simp only [State.set_sock, State.set_port, Function.update_noteq hz, hsz]

theorem add_effect (K : Consts) (st : State) (sock : Nat) (ev : epoll_event)
    (env : ctl_env) (r : ctl_result)
    (hrun : epoll_ctl_add K st sock ev env = .ok r) (hret : r.ret = 0) :
    env.malloc_sock_data ≠ NULL ∧ env.malloc_op ≠ NULL
    ∧ st.socks env.malloc_sock_data = none
    ∧ r.st.port.attn = env.malloc_sock_data
    ∧ r.st.port.sock_data_tree = env.malloc_sock_data :: st.port.sock_data_tree
    ∧ r.st.ops = Function.update st.ops env.malloc_op (some epoll_op_s.uninit)
    ∧ (∃ peer prev, r.st.socks env.malloc_sock_data = some
        { sock := sock, base_sock := sock, peer_sock := peer, op_generation := 0,
          submitted_events := 0, events := (ev.events ||| K.EPOLLERR ||| K.EPOLLHUP) % W32,
          attn := 1, user_data := ev.data, free_op := env.malloc_op, attn_prev := prev,
          attn_next := st.port.attn })
    ∧ (∀ z, z ≠ env.malloc_sock_data → ∀ sd, st.socks z = some sd →
        ∃ prev, r.st.socks z = some { sd with attn_prev := prev })
    ∧ (∀ x ∈ st.port.sock_data_tree,
        ∃ sd, st.sock_at x = .ok sd ∧ sd.sock % W32 ≠ sock % W32) := by
  have hg := get_peer_socket_spec K st env.ProviderId env.peer
  unfold epoll_ctl_add at hrun
  generalize epoll__get_peer_socket K st env.ProviderId env.peer = g at hrun hg
  obtain ⟨peer_sock, err, st1⟩ := g
  obtain ⟨_, hg1, hg2, _, hg4, hg5, _, _⟩ := hg
  dsimp only at hg1 hg2 hg4 hg5
  dsimp only at hrun
  split at hrun
  · cases hrun
    simp at hret
  · split at hrun
    · cases hrun
      simp at hret
    · split at hrun
      · cases hrun
        simp at hret
      · rename_i hsdnull
        split at hrun
        · cases hrun
        · rename_i hfresh
          split at hrun
          · split at hrun
            · cases hrun
            · cases hrun
              simp at hret
          · rename_i hopnull
            split at hrun
            · cases hrun
            · split at hrun
              · cases hrun
              · rename_i found st5 hins
                split at hrun
                · repeat' split at hrun
                  all_goals first
                    | (cases hrun; done)
                    | (cases hrun; simp at hret)
                · rename_i hfound
                  split at hrun
                  · cases hrun
                  · rename_i st6 hpush
                    cases hrun
                    have h5 := RB_INSERT_new _ _ _ _ hins hfound
                    obtain ⟨rec, hrec, hnull⟩ := RB_INSERT_null _ _ _ _ hins hfound
                    subst h5
                    have hnone : st.socks env.malloc_sock_data = none := by
                      rw [← hg1]
                      cases hc : st1.socks env.malloc_sock_data with
                      | none => rfl
                      | some v => simp [hc] at hfresh
                    obtain ⟨k1, k2, _, k4, k5⟩ := push_add_effect _ st6 env.malloc_sock_data _
                      (Function.update_same _ _ _) hpush
                    refine ⟨hsdnull, hopnull, hnone, ?_, ?_, ?_, ?_, ?_, ?_⟩
                    · rw [k1]
                    · rw [k1]
                      show env.malloc_sock_data :: st1.port.sock_data_tree = _
                      rw [hg4]
                    · rw [k2]
                      show Function.update st1.ops _ _ = _
                      rw [hg2]
                    · obtain ⟨prev, hprev⟩ := k4
                      refine ⟨peer_sock, prev, ?_⟩
                      rw [hprev]
                      dsimp only [State.set_port, State.set_sock, State.set_op]
                      rw [hg5]
                    · intro z hz sd hsz
                      refine k5 z hz sd ?_
                      simp only [State.set_sock, State.set_op, State.set_port,
                        Function.update_noteq hz, hg1, hsz]
                    · intro x hx
                      have hx1 : x ∈ st1.port.sock_data_tree := by
                        rw [hg4]
                        exact hx
                      obtain ⟨sd, hsd, hcmp⟩ := RB_FIND_null _ _ _ hnull x hx1
                      have hrec' := ((sock_at_ok_iff _ _ _).1 hrec).2
                      simp only [State.set_sock, Function.update_same,
                        Option.some.injEq] at hrec'
                      have hxy : x ≠ env.malloc_sock_data := by
                        intro hxy
                        rw [hxy, hrec] at hsd
                        cases hsd
                        exact hcmp ((compare_eq_zero_iff _ _).2 rfl)
                      refine ⟨sd, ?_, ?_⟩
                      · obtain ⟨hxn, hxs⟩ := (sock_at_ok_iff _ _ _).1 hsd
                        refine (sock_at_ok_iff _ _ _).2 ⟨hxn, ?_⟩
                        simp only [State.set_sock, State.set_op,
                          Function.update_noteq hxy, hg1] at hxs
                        exact hxs
                      · intro heq
                        apply hcmp
                        rw [compare_eq_zero_iff, ← hrec']
                        exact heq.symm

theorem chain_live (K : Consts) (st : State) :
    ∀ (l : List Ptr) (h : Ptr), attn_chain K st h l →
      ∀ x ∈ l, x ≠ NULL ∧ ∃ sd, st.socks x = some sd ∧ sd.attn ≠ 0
        ∧ (needs_submission K sd = true → submit_ready K st sd) := by
  intro l
  induction l with
  | nil =>
    intro _ _ x hx
    cases hx
  | cons y l ih =>
    intro h hc x hx
    obtain ⟨_, hy, sd, hs, hflag, hready, hrest⟩ := hc
    rcases List.mem_cons.1 hx with hxy | hxl
    · rw [hxy]
      exact ⟨hy, sd, hs, hflag, hready⟩
    · exact ih _ hrest x hxl

theorem chain_add (K : Consts)
    (hE : K.EPOLLERR ≠ 0) (hE32 : K.EPOLLERR < W32)
    (hH : K.EPOLLHUP ≠ 0) (hH32 : K.EPOLLHUP < W32)
    (st : State) (l : List Ptr) (sock : Nat) (ev : epoll_event) (env : ctl_env)
    (r : ctl_result)
    (hc : attn_chain K st st.port.attn l) (hnd : l.Nodup)
    (hrun : epoll_ctl_add K st sock ev env = .ok r) (hret : r.ret = 0) :
    attn_chain K r.st r.st.port.attn (env.malloc_sock_data :: l)
    ∧ (env.malloc_sock_data :: l).Nodup := by
  obtain ⟨hy, hq, hnone, hattn, _, hops, ⟨peer, prev, hrec⟩, hframe, _⟩ :=
    add_effect K st sock ev env r hrun hret
  have hyl : env.malloc_sock_data ∉ l := by
    intro hmem
    obtain ⟨_, sd, hs, _⟩ := chain_live K st l _ hc _ hmem
    rw [hnone] at hs
    cases hs
  have hlive : ∀ o, (st.ops o).isSome = true → (r.st.ops o).isSome = true := by
    intro o ho
    rw [hops]
    by_cases hoq : o = env.malloc_op
    · rw [hoq, Function.update_same]
      rfl
    · rw [Function.update_noteq hoq]
      exact ho
  refine ⟨⟨hattn, hy, _, hrec, Nat.one_ne_zero, ?_, ?_⟩, List.nodup_cons.2 ⟨hyl, hnd⟩⟩
  · intro _
    refine ⟨mandatory_of_store K _ hE hE32 hH hH32, hq, ?_, ?_⟩
    · show (r.st.ops env.malloc_op).isSome = true
      rw [hops, Function.update_same]
      rfl
    · show (0 : Int) + 1 ≤ INT_MAX
      decide
  · show attn_chain K r.st st.port.attn l
    refine chain_transfer K st r.st l _ ?_ hc
    intro x hx sd hs hflag hready
    have hxy : x ≠ env.malloc_sock_data := by
      intro hxy
      rw [hxy] at hx
      exact hyl hx
    obtain ⟨prev', hs'⟩ := hframe x hxy sd hs
    refine ⟨_, hs', hflag, rfl, ?_⟩
    intro hn
    obtain ⟨h1, h2, h3, h4⟩ := hready hn
    exact ⟨h1, h2, hlive _ h3, h4⟩

theorem tracked_first (K : Consts)
    (hE : K.EPOLLERR ≠ 0) (hE32 : K.EPOLLERR < W32)
    (hH : K.EPOLLHUP ≠ 0) (hH32 : K.EPOLLHUP < W32)
    (st : State) (l : List Ptr) (sock : Nat) (ev : epoll_event) (env : ctl_env)
    (r : ctl_result)
    (hc : attn_chain K st st.port.attn l) (hnd : l.Nodup)
    (hrun : epoll_ctl_add K st sock ev env = .ok r) (hret : r.ret = 0) :
    tracked K r.st (env.malloc_sock_data :: l) env.malloc_sock_data env.malloc_op sock
      ev.events := by
  obtain ⟨hchain, hnd'⟩ := chain_add K hE hE32 hH hH32 st l sock ev env r hc hnd hrun hret
  obtain ⟨hy, hq, _, _, htree, hops, ⟨peer, prev, hrec⟩, _, _⟩ :=
    add_effect K st sock ev env r hrun hret
  refine ⟨hchain, hnd', List.mem_cons_self _ _, hy, hq, ?_, ?_, _, hrec,
    ⟨rfl, rfl, rfl, rfl, rfl, rfl⟩, rfl⟩
  · rw [hops, Function.update_same]
    rfl
  · rw [htree]
    exact RB_FIND_head r.st sock _ _ _ hy hrec rfl

theorem tracked_add (K : Consts)
    (hE : K.EPOLLERR ≠ 0) (hE32 : K.EPOLLERR < W32)
    (hH : K.EPOLLHUP ≠ 0) (hH32 : K.EPOLLHUP < W32)
    (st : State) (l : List Ptr) (p q : Ptr) (sock m s : Nat) (ev : epoll_event)
    (env : ctl_env) (r : ctl_result)
    (ht : tracked K st l p q sock m)
    (hrun : epoll_ctl_add K st s ev env = .ok r) (hret : r.ret = 0) :
    tracked K r.st (env.malloc_sock_data :: l) p q sock m := by
  obtain ⟨hc, hnd, hpl, hp, hq, hlive, hfind, sd, hsd, hrec, hbase⟩ := ht
  obtain ⟨hchain, hnd'⟩ := chain_add K hE hE32 hH hH32 st l s ev env r hc hnd hrun hret
  obtain ⟨hy, _, hnone, _, htree, hops, ⟨peer, prev, hyrec⟩, hframe, hdiff⟩ :=
    add_effect K st s ev env r hrun hret
  have hpy : p ≠ env.malloc_sock_data := by
    intro hpy
    rw [hpy, hnone] at hsd
    cases hsd
  obtain ⟨prev', hsd'⟩ := hframe p hpy sd hsd
  refine ⟨hchain, hnd', List.mem_cons_of_mem _ hpl, hp, hq, ?_, ?_, _, hsd', hrec, hbase⟩
  · rw [hops]
    by_cases hoq : q = env.malloc_op
    · rw [hoq, Function.update_same]
      rfl
    · rw [Function.update_noteq hoq]
      exact hlive
  · obtain ⟨hmem, sdp, hsdp, hcmp⟩ := RB_FIND_found st _ p hp _ hfind
    obtain ⟨sdp', hsdp', hne⟩ := hdiff p hmem
    rw [hsdp] at hsdp'
    cases hsdp'
    have hkey : (lookup_key sock).sock % W32 = sdp.sock % W32 :=
      (compare_eq_zero_iff _ _).1 hcmp
    rw [htree]
    simp only [RB_FIND, (sock_at_ok_iff r.st _ _).2 ⟨hy, hyrec⟩]
    rw [if_neg]
    · refine RB_FIND_congr st r.st _ p _ ?_ hfind
      intro x _ sdx hsdx
      obtain ⟨hxn, hxs⟩ := (sock_at_ok_iff _ _ _).1 hsdx
      have hxy : x ≠ env.malloc_sock_data := by
        intro hxy
        rw [hxy, hnone] at hxs
        cases hxs
      obtain ⟨prevx, hsx'⟩ := hframe x hxy sdx hxs
      exact ⟨_, (sock_at_ok_iff _ _ _).2 ⟨hxn, hsx'⟩, rfl⟩
    · rw [compare_eq_zero_iff, hkey]
      exact hne

theorem tracked_mod (K : Consts)
    (hE : K.EPOLLERR ≠ 0) (hE32 : K.EPOLLERR < W32)
    (hH : K.EPOLLHUP ≠ 0) (hH32 : K.EPOLLHUP < W32)
    (st : State) (l : List Ptr) (p q : Ptr) (sock m : Nat) (ev : epoll_event)
    (env : ctl_env) (r : ctl_result)
    (ht : tracked K st l p q sock m)
    (hrun : epoll_ctl_mod K st sock ev env = .ok r) (hret : r.ret = 0) :
    tracked K r.st l p q sock ev.events := by
  obtain ⟨hc, hnd, hpl, hp, hq, hlive, hfind, sd, hsd, hrec, hbase⟩ := ht
  obtain ⟨h1, h2, h3, h4, h5, h6⟩ := hrec
  have hat : st.sock_at p = .ok sd := (sock_at_ok_iff st p sd).2 ⟨hp, hsd⟩
  have hfree : ¬ sd.free_op = NULL := by
    rw [h6]
    exact hq
  have hspare : epoll_ctl_mod_spare st p sd env = .ok (some st) := by
    unfold epoll_ctl_mod_spare
    rw [if_neg hfree]
  have hflag : ¬ sd.attn = 0 := by
    rw [h5]
    decide
  unfold epoll_ctl_mod at hrun
  simp only [hfind, hp, if_false, hat, hspare, hflag, State.modify_sock, ite_self] at hrun
  cases hrun
  refine ⟨?_, hnd, hpl, hp, hq, hlive, ?_,
    { sd with events := (ev.events ||| K.EPOLLERR ||| K.EPOLLHUP) % W32, user_data := ev.data },
    ?_, ⟨h1, h2, h3, rfl, h5, h6⟩, hbase⟩
  · show attn_chain K _ st.port.attn l
    refine chain_transfer K st _ l _ ?_ hc
    intro x hx sdx hsx hflagx hreadyx
    by_cases hxp : x = p
    · rw [hxp] at hsx ⊢
      rw [hsd] at hsx
      cases hsx
      refine ⟨_, Function.update_same _ _ _, hflag, rfl, ?_⟩
      intro _
      refine ⟨mandatory_of_store K _ hE hE32 hH hH32, hfree, ?_, ?_⟩
      · show (st.ops sd.free_op).isSome = true
        rw [h6]
        exact hlive
      · show sd.op_generation + 1 ≤ INT_MAX
        rw [h2]
        decide
    · refine ⟨sdx, by simp only [State.set_sock, Function.update_noteq hxp, hsx], hflagx,
        rfl, hreadyx⟩
  · show RB_FIND _ _ st.port.sock_data_tree = _
    refine RB_FIND_congr st _ _ p _ ?_ hfind
    intro x _ sdx hsdx
    obtain ⟨hxn, hxs⟩ := (sock_at_ok_iff _ _ _).1 hsdx
    by_cases hxp : x = p
    · rw [hxp] at hxs ⊢
      rw [hsd] at hxs
      cases hxs
      exact ⟨_, (sock_at_ok_iff _ _ _).2 ⟨hp, Function.update_same _ _ _⟩, rfl⟩
    · exact ⟨sdx, (sock_at_ok_iff _ _ _).2 ⟨hxn, by simp only [State.set_sock,
        Function.update_noteq hxp, hxs]⟩, rfl⟩
  · exact Function.update_same _ _ _

theorem tracked_steps (K : Consts)
    (hE : K.EPOLLERR ≠ 0) (hE32 : K.EPOLLERR < W32)
    (hH : K.EPOLLHUP ≠ 0) (hH32 : K.EPOLLHUP < W32)
    (p q : Ptr) (sock : Nat) (steps : List ctl_step) :
    ∀ (st st' : State) (l : List Ptr) (m : Nat),
      tracked K st l p q sock m →
      epoll_ctl_steps K sock st steps = some st' →
      tracked K st' (added_blocks steps ++ l) p q sock (final_mask m steps) := by
  induction steps with
  | nil =>
    intro st st' l m ht h
    simp only [epoll_ctl_steps, Option.some.injEq] at h
    subst h
    exact ht
  | cons c rest ih =>
    intro st st' l m ht h
    cases c with
    | add s ev env =>
      simp only [epoll_ctl_steps] at h
      split at h
      · rename_i r hr
        split at h
        · rename_i hret
          have := ih r.st st' _ m
            (tracked_add K hE hE32 hH hH32 st l p q sock m s ev env r ht hr hret) h
          simp only [added_blocks, final_mask, List.append_assoc, List.singleton_append]
          exact this
        · cases h
      · cases h
    | mod ev env =>
      simp only [epoll_ctl_steps] at h
      split at h
      · rename_i r hr
        split at h
        · rename_i hret
          exact ih r.st st' l ev.events
            (tracked_mod K hE hE32 hH hH32 st l p q sock m ev env r ht hr hret) h
        · cases h
      · cases h

theorem drain_call_key (K : Consts) (st : State) (x : Ptr) (c : afd_poll_call)
    (h : drain_call K st x = some c) : c.sock_data = x := by
  unfold drain_call submit_poll_call at h
  dsimp only at h
  repeat' split at h
  all_goals first
    | (cases h; done)
    | (simp only [Option.some.injEq] at h
       rw [← h])

theorem filterMap_filter_none (f : Ptr → Option afd_poll_call) (p : Ptr)
    (hkey : ∀ x c, f x = some c → c.sock_data = x) :
    ∀ l : List Ptr, p ∉ l →
      (l.filterMap f).filter (fun c => decide (c.sock_data = p)) = [] := by
  intro l
  induction l with
  | nil =>
    intro _
    rfl
  | cons x l ih =>
    intro hp
    have hxp : x ≠ p := fun h => hp (by rw [h]; exact List.mem_cons_self _ _)
    have hl : p ∉ l := fun h => hp (List.mem_cons_of_mem _ h)
    rw [List.filterMap_cons]
    cases hfx : f x with
    | none => exact ih hl
    | some c =>
      have hc := hkey x c hfx
      simp only [List.filter_cons, hc, hxp, decide_False, Bool.false_eq_true, if_false]
      exact ih hl

theorem filterMap_filter_unique (f : Ptr → Option afd_poll_call) (p : Ptr)
    (c : afd_poll_call) (hkey : ∀ x c, f x = some c → c.sock_data = x) (hp : f p = some c) :
    ∀ l : List Ptr, l.Nodup → p ∈ l →
      (l.filterMap f).filter (fun c => decide (c.sock_data = p)) = [c] := by
  intro l
  induction l with
  | nil =>
    intro _ h
    cases h
  | cons x l ih =>
    intro hnd hmem
    obtain ⟨hxl, hnd'⟩ := List.nodup_cons.1 hnd
    rw [List.filterMap_cons]
    by_cases hxp : x = p
    · subst hxp
      rw [hp]
      have hc := hkey x c hp
      simp only [List.filter_cons, hc, decide_True, if_true]
      rw [filterMap_filter_none f x hkey l hxl]
    · have hpl : p ∈ l := by
        rcases List.mem_cons.1 hmem with h | h
        · exact absurd h.symm hxp
        · exact h
      cases hfx : f x with
      | none => exact ih hnd' hpl
      | some c' =>
        have hc := hkey x c' hfx
        simp only [List.filter_cons, hc, hxp, decide_False, Bool.false_eq_true, if_false]
        exact ih hnd' hpl

theorem in_flight_mem (K : Consts) (st : State) (x : Ptr) (c : afd_poll_call)
    (l0 : List Ptr) (env : afd_poll_env)
    (hc : drain_call K st x = some c) (hacc : afd_accepted env = true) :
    ∀ (pre : List Ptr) (envs : List afd_poll_env), envs.get? pre.length = some env →
      c.op ∈ drain_in_flight K st (pre ++ x :: l0) envs := by
  intro pre
  induction pre with
  | nil =>
    intro envs h
    cases envs with
    | nil => cases h
    | cons e rest =>
      simp only [List.length_nil, List.get?_cons_zero, Option.some.injEq] at h
      subst h
      simp only [List.nil_append, drain_in_flight, hc, hacc, if_true, List.singleton_append,
        List.mem_cons, true_or]
  | cons y pre ih =>
    intro envs h
    cases envs with
    | nil => cases h
    | cons e rest =>
      simp only [List.length_cons, List.get?_cons_succ] at h
      simp only [List.cons_append, drain_in_flight]
      exact List.mem_append_right _ (ih rest h)

/-- A socket is added on a port whose attention list is well formed (each
entry is allocated, flagged, linked to the next, and can be submitted if it
needs to).  Before the next `epoll_wait`, any finite sequence of calls follows
in which the socket is modified or other sockets are added, each returning 0;
`m_final` is the mask of the last modify, or of the add when there is none.
Then the attention list consists of the registrations added after it, the
registration itself, and the former list.  With one answer of the driver for
each entry, the drain loop of the next `epoll_wait` returns; the calls of
`afd_poll` it makes are those of the entries of the list, in order; exactly one
of them is for the registration, with the driver mask derived from
`m_final | ERR | HUP`, the handle of the socket and the spare operation of the
registration; the operations in flight after the loop are the former ones and
those of the calls that the driver took, among them the operation of the
registration when the driver took its call; and the loop leaves the
registration with generation 1 and off the list.  The constants `EPOLLERR` and
`EPOLLHUP` are non-zero 32-bit values and `EPOLLERR` lies in
`EPOLL_EVENT_MASK`. -/
theorem drain_one_request_final_mask (K : Consts)
    (hE : K.EPOLLERR ≠ 0) (hE32 : K.EPOLLERR < W32)
    (hH : K.EPOLLHUP ≠ 0) (hH32 : K.EPOLLHUP < W32)
    (hmask : K.EPOLLERR &&& K.EPOLL_EVENT_MASK ≠ 0)
    (st0 st2 : State) (l0 : List Ptr) (sock : Nat) (ev0 : epoll_event) (env0 : ctl_env)
    (r0 : ctl_result) (steps : List ctl_step) (envs : List afd_poll_env)
    (hlist : attn_chain K st0 st0.port.attn l0) (hnodup : l0.Nodup)
    (hadd : epoll_ctl_add K st0 sock ev0 env0 = .ok r0) (hret : r0.ret = 0)
    (hsteps : epoll_ctl_steps K sock r0.st steps = some st2)
    (hfuel : (added_blocks steps).length + 1 + l0.length ≤ envs.length) :
    attn_chain K st2 st2.port.attn (added_blocks steps ++ env0.malloc_sock_data :: l0)
    ∧ ∃ st3 peer,
        epoll_wait_drain K st2 envs = .ok st3
        ∧ (epoll_wait_drain_traced K st2 envs).1
            = (added_blocks steps ++ env0.malloc_sock_data :: l0).filterMap (drain_call K st2)
        ∧ (epoll_wait_drain_traced K st2 envs).1.filter
              (fun c => decide (c.sock_data = env0.malloc_sock_data))
            = [⟨peer, sock,
                submit_afd_events K
                  ((final_mask ev0.events steps ||| K.EPOLLERR ||| K.EPOLLHUP) % W32),
                env0.malloc_op, env0.malloc_sock_data⟩]
        ∧ st3.kernel = st2.kernel
            ++ drain_in_flight K st2 (added_blocks steps ++ env0.malloc_sock_data :: l0) envs
        ∧ (∀ env, envs.get? (added_blocks steps).length = some env →
            afd_accepted env = true → env0.malloc_op ∈ st3.kernel)
        ∧ (st3.socks env0.malloc_sock_data).map (fun sd => (sd.op_generation, sd.attn))
            = some (1, 0) := by
  have ht0 := tracked_first K hE hE32 hH hH32 st0 l0 sock ev0 env0 r0 hlist hnodup hadd hret
  have ht := tracked_steps K hE hE32 hH hH32 _ _ sock steps r0.st st2 _ _ ht0 hsteps
  obtain ⟨hc, hnd, hpl, hp, hq, hlive, _, sd, hsd, ⟨h1, h2, h3, h4, h5, h6⟩, hbase⟩ := ht
  have hlen : (added_blocks steps ++ env0.malloc_sock_data :: l0).length ≤ envs.length := by
    simp only [List.length_append, List.length_cons]
    omega
  obtain ⟨st3, htr, hker, _, _, hnodes⟩ := drain_chain K _ st2 envs hc hnd hlen
  have hneed : needs_submission K sd = true := by
    unfold needs_submission
    rw [h4, h3]
    exact decide_eq_true (need_submit K _ hE32 hmask)
  have hready : submit_ready K st2 sd :=
    ((chain_live K st2 _ _ hc _ hpl).2.elim fun sd' h => by
      obtain ⟨hs', _, hr'⟩ := h
      rw [hsd] at hs'
      cases hs'
      exact hr' hneed)
  obtain ⟨_, _, _, hcall, _⟩ :=
    submit_ready_run K st2 _ sd ⟨0, 0⟩ hp hsd hready
  have hdc : drain_call K st2 env0.malloc_sock_data
      = some ⟨sd.peer_sock, sock,
          submit_afd_events K
            ((final_mask ev0.events steps ||| K.EPOLLERR ||| K.EPOLLHUP) % W32),
          env0.malloc_op, env0.malloc_sock_data⟩ := by
    unfold drain_call
    rw [(sock_at_ok_iff st2 _ sd).2 ⟨hp, hsd⟩]
    simp only [hneed, if_true, hcall, hbase, h4, h6]
  have hfst : (epoll_wait_drain_traced K st2 envs).1
      = (added_blocks steps ++ env0.malloc_sock_data :: l0).filterMap (drain_call K st2) := by
    rw [htr]
  refine ⟨hc, st3, sd.peer_sock, ?_, hfst, ?_, hker, ?_, ?_⟩
  · rw [← drain_traced_snd, htr]
  · rw [hfst]
    exact filterMap_filter_unique _ _ _ (drain_call_key K st2) hdc _ hnd hpl
  · intro env henv hacc
    rw [hker]
    exact List.mem_append_right _
      (in_flight_mem K st2 _ _ l0 env hdc hacc (added_blocks steps) envs henv)
  · obtain ⟨sd', hs', hattn', hgen'⟩ := hnodes _ hpl sd hsd
    rw [hs']
    simp only [Option.map_some', hattn', hgen', hneed, if_true, h2]
    rfl

/-- An instance: socket `100` is added with mask `in` on the fresh port,
then socket `200` is added and socket `100` is modified to `in | out`; the
driver takes both calls of the drain loop. -/
theorem drain_one_request_final_mask_example :
    attn_chain abi demo_stepped demo_stepped.port.attn
      (added_blocks demo_steps ++ demo_add_env.malloc_sock_data :: [])
    ∧ ∃ st3 peer,
        epoll_wait_drain abi demo_stepped [demo_afd_ok, demo_afd_ok] = .ok st3
        ∧ (epoll_wait_drain_traced abi demo_stepped [demo_afd_ok, demo_afd_ok]).1
            = (added_blocks demo_steps ++ demo_add_env.malloc_sock_data :: []).filterMap
                (drain_call abi demo_stepped)
        ∧ (epoll_wait_drain_traced abi demo_stepped [demo_afd_ok, demo_afd_ok]).1.filter
              (fun c => decide (c.sock_data = demo_add_env.malloc_sock_data))
            = [⟨peer, 100,
                submit_afd_events abi
                  ((final_mask 1 demo_steps ||| abi.EPOLLERR ||| abi.EPOLLHUP) % W32),
                demo_add_env.malloc_op, demo_add_env.malloc_sock_data⟩]
        ∧ st3.kernel = demo_stepped.kernel
            ++ drain_in_flight abi demo_stepped
                (added_blocks demo_steps ++ demo_add_env.malloc_sock_data :: [])
                [demo_afd_ok, demo_afd_ok]
        ∧ (∀ env, [demo_afd_ok, demo_afd_ok].get? (added_blocks demo_steps).length = some env →
            afd_accepted env = true → demo_add_env.malloc_op ∈ st3.kernel)
        ∧ (st3.socks demo_add_env.malloc_sock_data).map
            (fun sd => (sd.op_generation, sd.attn)) = some (1, 0) :=
  drain_one_request_final_mask abi (by decide) (by decide) (by decide) (by decide) (by decide)
    demo_created demo_stepped [] 100 ⟨1, 0xAA⟩ demo_add_env demo_first_add demo_steps
    [demo_afd_ok, demo_afd_ok] rfl List.nodup_nil rfl rfl rfl (by decide)

theorem demo_blocked_reachable : Reachable abi demo_blocked.st :=
  Reachable.ctl demo_blocked_mod.st abi.EPOLL_CTL_MOD 100 ⟨5, 0xAA⟩ demo_mod_env demo_blocked
    (Reachable.ctl demo_blocked_add.st abi.EPOLL_CTL_MOD 200 ⟨5, 0xBC⟩ demo_mod_env
      demo_blocked_mod
      (Reachable.ctl demo_inflight abi.EPOLL_CTL_ADD 200 ⟨4, 0xBB⟩ demo_exists_env
        demo_blocked_add demo_inflight_reachable rfl)
      rfl)
    rfl

/-- C17 fails on the code.  On the port `demo_inflight`, where the poll request
of socket `100` is in flight, socket `200` is added with mask `out` and modified
to `in | out`, and socket `100` is modified; the three calls return 0.  The
registration of socket `200`, at address `6`, is then on the attention list with
its flag set, the registered events `in | out | err | hup`, generation 0 and its
spare operation at address `8`, and the only operation in flight belongs to the
registration at address `5`.  But the modify of socket `100` has put that
registration at the head of the list without a spare operation, so the drain
loop of the next `epoll_wait` stops in its first turn at the assertion of line
163, whatever the driver would answer: it makes no call of `afd_poll`, and no
poll request is issued for the registration of socket `200`. -/
theorem C17_request_never_issued :
    Reachable abi demo_blocked.st
    ∧ epoll_ctl abi demo_inflight abi.EPOLL_CTL_ADD 200 ⟨4, 0xBB⟩ demo_exists_env
        = .ok demo_blocked_add
    ∧ demo_blocked_add.ret = 0
    ∧ epoll_ctl abi demo_blocked_add.st abi.EPOLL_CTL_MOD 200 ⟨5, 0xBC⟩ demo_mod_env
        = .ok demo_blocked_mod
    ∧ demo_blocked_mod.ret = 0
    ∧ epoll_ctl abi demo_blocked_mod.st abi.EPOLL_CTL_MOD 100 ⟨5, 0xAA⟩ demo_mod_env
        = .ok demo_blocked
    ∧ demo_blocked.ret = 0
    ∧ (demo_blocked.st.socks 6).map
        (fun sd => (sd.sock, sd.events, sd.op_generation, sd.attn, sd.free_op))
        = some (200, 0x1d, 0, 1, 8)
    ∧ demo_blocked.st.kernel = [7]
    ∧ (demo_blocked.st.ops 7).map (fun o => o.sock_data) = some 5
    ∧ demo_blocked.st.port.attn = 5
    ∧ (demo_blocked.st.socks 5).map (fun sd => (sd.attn_next, sd.free_op)) = some (6, NULL)
    ∧ epoll_wait abi demo_blocked.st 4 0 demo_wait_env = .error (.assertion 163)
    ∧ ∀ env rest,
        epoll_wait_drain abi demo_blocked.st (env :: rest) = .error (.assertion 163)
        ∧ (epoll_wait_drain_traced abi demo_blocked.st (env :: rest)).1 = [] := by
  refine ⟨demo_blocked_reachable, rfl, rfl, rfl, rfl, rfl, rfl, rfl, rfl, rfl, rfl, rfl, rfl,
    ?_⟩
  intro env rest
  exact ⟨rfl, rfl⟩

end Wepoll
